import Mathlib

/-!
Verification development for the signal-generation core of the `stages`
firmware fork (SegmentGenerator and RampExtractor).

Floating-point values of the source are embedded as rationals (ℚ), 16-bit
and 32-bit machine integers as ℕ / ℤ with explicit masking or truncation
where the source relies on width.  `Random::GetFloat()` is embedded as an
oracle stream of rationals in [0, 1).  Lookup tables that live outside the
translated sources (`lut_env_frequency`, `lut_portamento_coefficient`,
`SemitonesToRatio`) are embedded as function parameters so that every
theorem quantifies over the table contents where the claim does not fix
them.
-/

namespace Stages

/-- Truncation toward zero, the semantics of C `static_cast<int>` on a
float value (src casts `rate * 2048.0f`, `rate * 512.0f`,
`15 * secondary + 1`, divider phases). -/
def ratTrunc (q : ℚ) : ℤ :=
  if 0 ≤ q then ⌊q⌋ else ⌈q⌉

/-- stmlib `CONSTRAIN(x, lo, hi)`: `if (x < lo) x = lo; else if (x > hi) x = hi;`. -/
def constrain (x lo hi : ℤ) : ℤ :=
  if x < lo then lo else if x > hi then hi else x

/-- stmlib `CONSTRAIN` on floats (used on the semitone offset in
`ProcessFreeRunningLFO`). -/
def constrainQ (x lo hi : ℚ) : ℚ :=
  if x < lo then lo else if x > hi then hi else x

/-- One sample of the gate-flag stream: stmlib `GateFlags` bit set
`GATE_FLAG_HIGH | GATE_FLAG_RISING | GATE_FLAG_FALLING`. -/
structure GateFlags where
  rising : Bool
  falling : Bool
  high : Bool
deriving DecidableEq

/-- One output triple of `SegmentGenerator::Output`. -/
structure Output where
  value : ℚ
  phase : ℚ
  segment : ℕ
deriving DecidableEq

/-- stmlib `Crossfade(a, b, t) = a + (b - a) * t`. -/
def Crossfade (a b t : ℚ) : ℚ := a + (b - a) * t

/-- stmlib `ONE_POLE(out, in, coefficient)`: `out += coefficient * (in - out)`. -/
def onePole (out inp k : ℚ) : ℚ := out + k * (inp - out)

/-- `SegmentGenerator::WarpPhase(t, curve)` translated literally. -/
def WarpPhase (t curve : ℚ) : ℚ :=
  let c := curve - 1/2
  let flip := c < 0
  let t1 := if flip then 1 - t else t
  let a := 128 * c * c
  let t2 := (1 + a) * t1 / (1 + a * t1)
  if flip then 1 - t2 else t2

/-- `kRetrigDelaySamples = 32`, the duration of the output "tooth" when a
trigger arrives while the output is high. -/
def kRetrigDelaySamples : ℕ := 32

/-! ## Turing shift-register update (`advance_tm`) -/

/-- The 16-bit register part of `advance_tm`: given the steps count, the
mutation probability `prob`, one oracle draw `rnd` of `Random::GetFloat()`
and the current register, produce the next register value.  Mirrors
src/stages/segment_generator.cc lines 134-148. -/
def advanceTmReg (steps : ℕ) (prob rnd : ℚ) (sr : ℕ) : ℕ :=
  let copied_bit := (sr <<< (steps - 1)) &&& 32768
  let p : ℚ := if prob < 1/1000 then 0 else if prob > 999/1000 then 11/10 else prob
  let coin : ℕ := if rnd < p then 1 else 0
  let mutated := copied_bit ^^^ (coin <<< 15)
  (sr >>> 1) ||| mutated

/-- Full `advance_tm`: next `(shift_register, register_value)` pair,
including the `/ 65535` scaling and the bipolar `10/8 * (v - 0.5)`
rescaling (src lines 134-153). -/
def advanceTm (steps : ℕ) (prob rnd : ℚ) (sr : ℕ) (bipolar : Bool) : ℕ × ℚ :=
  let sr2 := advanceTmReg steps prob rnd sr
  let v : ℚ := (sr2 : ℚ) / 65535
  (sr2, if bipolar then (10 / 8 : ℚ) * (v - 1/2) else v)

/-- The steps count used at both call sites:
`size_t(15 * secondary + 1)` (C float-to-integer cast truncates). -/
def stepsOf (secondary : ℚ) : ℕ := (ratTrunc (15 * secondary + 1)).toNat

/-- The Turing update as the claim words it: steps `s = floor(15*secondary+1)`,
extracted bit = bit 15 of `sr << (s-1)`, probability clamped to 0 below
0.001 and to 1 above 0.999, extracted bit XOR coin flip, register
`sr = (sr >> 1) | (mutated << 15)`, value `sr / 65535` with bipolar
rescale `1.25 * (v - 0.5)`. -/
def claimTuringUpdate (secondary prob rnd : ℚ) (sr : ℕ) (bipolar : Bool) : ℕ × ℚ :=
  let s := (ratTrunc (15 * secondary + 1)).toNat
  let b : Bool := Nat.testBit (sr <<< (s - 1)) 15
  let pc : ℚ := if prob < 1/1000 then 0 else if prob > 999/1000 then 1 else prob
  let coin : Bool := decide (rnd < pc)
  let mutated : ℕ := if Bool.xor b coin then 1 else 0
  let sr2 := (sr >>> 1) ||| (mutated <<< 15)
  let v : ℚ := (sr2 : ℚ) / 65535
  (sr2, if bipolar then (125 / 100 : ℚ) * (v - 1/2) else v)

/-- A pure one-bit right rotation of a 16-bit value. -/
def rotateRight16 (sr : ℕ) : ℕ := sr / 2 + (sr % 2) * 32768

/-! ## Single-segment dispatch tables -/

/-- The twelve process kernels that appear in the two 16-entry dispatch
tables (each names one `SegmentGenerator::Process...` member). -/
inductive ProcessMode
  | zero
  | freeRunningLFO
  | decayEnvelope
  | tapLFO
  | portamento
  | sampleAndHold
  | trackAndHold
  | delay
  | timedPulseGenerator
  | gateGenerator
  | random
  | turing
  | logistic
deriving DecidableEq

/-- `SegmentGenerator::process_fn_table_` (basic table), in source order:
index = (type << 2) | (has_trigger << 1) | bipolar. -/
def process_fn_table : List ProcessMode :=
  [ .zero, .freeRunningLFO, .decayEnvelope, .tapLFO,
    .portamento, .portamento, .sampleAndHold, .sampleAndHold,
    .delay, .delay, .timedPulseGenerator, .gateGenerator,
    .zero, .zero, .zero, .zero ]

/-- `SegmentGenerator::advanced_process_fn_table_`, in source order. -/
def advanced_process_fn_table : List ProcessMode :=
  [ .zero, .freeRunningLFO, .decayEnvelope, .tapLFO,
    .portamento, .portamento, .sampleAndHold, .trackAndHold,
    .delay, .delay, .timedPulseGenerator, .gateGenerator,
    .random, .random, .turing, .logistic ]

/-! ## LUT index computations (`RateToFrequency`, `PortamentoRateToLPCoefficient`) -/

/-- The index computed by `SegmentGenerator::RateToFrequency`:
`i = int32(rate * 2048)` followed by `CONSTRAIN(i, 0, LUT_ENV_FREQUENCY_SIZE)`.
The table size is a parameter because resources.h is external. -/
def rateToFrequencyIndex (lutEnvFrequencySize : ℤ) (rate : ℚ) : ℤ :=
  constrain (ratTrunc (rate * 2048)) 0 lutEnvFrequencySize

/-- The index computed by `SegmentGenerator::PortamentoRateToLPCoefficient`:
`i = int32(rate * 512)` with no constraint at all (src lines 129-132). -/
def portamentoIndex (rate : ℚ) : ℤ :=
  ratTrunc (rate * 512)

/-! ## FreeLFO frequency (`ProcessFreeRunningLFO`) -/

/-- The three `segment::Range` values. -/
inductive Range
  | DEFAULT
  | SLOW
  | FAST
deriving DecidableEq

/-- The per-sample phase increment computed by `ProcessFreeRunningLFO`
(src lines 415-438), with `SemitonesToRatio` abstracted as `str` (it is an
stmlib unit-conversion function external to the translated sources) and
`slowMode` the `multimode == MULTI_MODE_STAGES_SLOW_LFO` test. -/
def freeRunningLFOFrequency (str : ℚ → ℚ) (sampleRate primary : ℚ)
    (range : Range) (slowMode : Bool) : ℚ :=
  let f := constrainQ (96 * (primary - 1/2)) (-128) 127
  let frequency := str f * (20439497 / 10000000) / sampleRate
  let frequency :=
    match range with
    | .SLOW => frequency / 16
    | .FAST => min (frequency * 64) (7040 / sampleRate)
    | .DEFAULT => frequency
  if slowMode then frequency / 8 else frequency

/-- The FreeLFO frequency exactly as claim C5 words it: the semitone
offset is clamped to the range plus-minus 128 semitones. -/
def claimFreeLFOFrequency (str : ℚ → ℚ) (sampleRate primary : ℚ)
    (range : Range) (slowMode : Bool) : ℚ :=
  let f := max (-128) (min 128 (96 * (primary - 1/2)))
  let frequency := str f * (20439497 / 10000000) / sampleRate
  let frequency :=
    match range with
    | .SLOW => frequency / 16
    | .FAST => min (frequency * 64) (7040 / sampleRate)
    | .DEFAULT => frequency
  if slowMode then frequency / 8 else frequency

/-- The amended formula: identical except that the semitone offset is
clamped to [-128, 127], as `CONSTRAIN(f, -128.0f, 127.0f)` does. -/
def amendedFreeLFOFrequency (str : ℚ → ℚ) (sampleRate primary : ℚ)
    (range : Range) (slowMode : Bool) : ℚ :=
  let f := max (-128) (min 127 (96 * (primary - 1/2)))
  let frequency := str f * (20439497 / 10000000) / sampleRate
  let frequency :=
    match range with
    | .SLOW => frequency / 16
    | .FAST => min (frequency * 64) (7040 / sampleRate)
    | .DEFAULT => frequency
  if slowMode then frequency / 8 else frequency

/-! ## TimedPulse kernel (`ProcessTimedPulseGenerator`) -/

/-- Runtime state used by the timed-pulse kernel. -/
structure TimedPulseState where
  phase : ℚ
  active_segment : ℕ
  retrig_delay : ℕ
  value : ℚ
deriving DecidableEq

/-- One sample of `ProcessTimedPulseGenerator` (src lines 243-271).
`frequency = RateToFrequency(secondary)` is computed per block and passed
in; `p` is the block-interpolated primary for this sample; `retrig0` is
`segments_[0].retrig`. -/
def processTimedPulseStep (frequency p : ℚ) (retrig0 : Bool)
    (st : TimedPulseState) (g : GateFlags) : TimedPulseState × Output :=
  let st :=
    if g.rising && (decide (st.active_segment ≠ 0) || retrig0) then
      { st with
        retrig_delay := if st.active_segment = 0 then kRetrigDelaySamples else 0,
        phase := 0,
        active_segment := 0 }
    else st
  let st :=
    if st.retrig_delay ≠ 0 then { st with retrig_delay := st.retrig_delay - 1 } else st
  let phase := st.phase + frequency
  let complete := phase ≥ 1
  let phase := if complete then 1 else phase
  let active := if complete then 1 else st.active_segment
  let v : ℚ := if active = 0 ∧ st.retrig_delay = 0 then p else 0
  ({ st with phase := phase, active_segment := active, value := v },
   { value := v, phase := phase, segment := active })

/-! ## Multi-segment engine

The source wires each segment with `float*` pointers into a fixed set of
cells: the constants `zero_`, `half_`, `one_`, the per-segment parameter
cells, and other segments' `register_value`.  The shallow embedding keeps
that graph as tagged addresses (`FSrc`) resolved against the current state
at every read, which is exactly the pointer semantics. -/

/-- Address of one float cell a segment indirection can point at. -/
inductive FSrc
  | zero
  | half
  | one
  | primary (i : ℕ)
  | secondary (i : ℕ)
  | registerValue (i : ℕ)
deriving DecidableEq

/-- The four `segment::Type` values. -/
inductive SegmentType
  | RAMP
  | STEP
  | HOLD
  | TURING
deriving DecidableEq

/-- One `segment::Configuration` entry (the fields the multi-segment
`Configure` path reads). -/
structure Configuration where
  type : SegmentType
  loop : Bool
  bipolar : Bool
deriving DecidableEq

/-- One runtime `Segment` record (stages/segment_generator.h). -/
structure Segment where
  start : Option FSrc
  stop : FSrc             -- the source's `end` pointer (`end` is reserved in Lean)
  time : Option FSrc
  curve : FSrc
  portamento : FSrc
  phase : Option FSrc
  if_rising : ℤ
  if_falling : ℤ
  if_complete : ℤ
  bipolar : Bool
  retrig : Bool
  advance_tm : Bool
  shift_register : ℕ
  register_value : ℚ
deriving DecidableEq

/-- Default used for out-of-range list reads (the source never performs
them; `getD` just keeps the embedding total). -/
def dfltSegment : Segment :=
  { start := some .zero, stop := .zero, time := some .zero, curve := .half,
    portamento := .zero, phase := none, if_rising := 0, if_falling := 0,
    if_complete := 0, bipolar := false, retrig := true, advance_tm := false,
    shift_register := 0, register_value := 0 }

/-- The whole `SegmentGenerator` state the multi-segment engine touches.
`segments` has `kMaxNumSegments + 1 = 7` entries, `parameters` six
`(primary, secondary)` pairs, `rng` is the position in the
`Random::GetFloat()` oracle stream. -/
structure SegGenState where
  segments : List Segment
  parameters : List (ℚ × ℚ)
  phase : ℚ
  start : ℚ
  value : ℚ
  lp : ℚ
  active_segment : ℕ
  num_segments : ℕ
  rng : ℕ
deriving DecidableEq

/-- External tables and oracles: the two LUTs (resources.h is external to
the translated sources) and the random stream. -/
structure Ctx where
  lutEnv : ℤ → ℚ
  lutEnvSize : ℤ
  lutPorta : ℤ → ℚ
  rand : ℕ → ℚ

/-- `SegmentGenerator::RateToFrequency` (table read at the saturated index). -/
def RateToFrequency (ctx : Ctx) (rate : ℚ) : ℚ :=
  ctx.lutEnv (rateToFrequencyIndex ctx.lutEnvSize rate)

/-- `SegmentGenerator::PortamentoRateToLPCoefficient` (unclamped table read). -/
def PortamentoRateToLPCoefficient (ctx : Ctx) (rate : ℚ) : ℚ :=
  ctx.lutPorta (portamentoIndex rate)

/-- Dereference one `FSrc` against the current state. -/
def resolve (st : SegGenState) : FSrc → ℚ
  | .zero => 0
  | .half => 1/2
  | .one => 1
  | .primary i => (st.parameters.getD i (0, 0)).1
  | .secondary i => (st.parameters.getD i (0, 0)).2
  | .registerValue i => (st.segments.getD i dfltSegment).register_value

/-- Overwrite segment `i`'s Turing state, leaving every other field and
every other segment untouched. -/
def setRegister (segs : List Segment) (i : ℕ) (sr : ℕ) (rv : ℚ) : List Segment :=
  segs.set i { segs.getD i dfltSegment with shift_register := sr, register_value := rv }

/-- The transition choice of `ProcessMultiSegment` (src lines 180-188):
`-1` means stay. -/
def goToSegment (g : GateFlags) (seg : Segment) (complete : Bool) : ℤ :=
  if g.rising && seg.retrig then seg.if_rising
  else if g.falling then seg.if_falling
  else if complete then seg.if_complete
  else -1

/-- The segment record the engine is currently running. -/
def currentSegment (st : SegGenState) : Segment :=
  st.segments.getD st.active_segment dfltSegment

/-- The phase after the per-sample advance: `phase += RateToFrequency(*time)`
when the segment has a time source, else unchanged (src lines 165-167). -/
def stepPhaseAdv (ctx : Ctx) (st : SegGenState) : ℚ :=
  match (currentSegment st).time with
  | some t => st.phase + RateToFrequency ctx (resolve st t)
  | none => st.phase

/-- The transition target chosen this sample (src lines 180-188). -/
def stepGo (ctx : Ctx) (st : SegGenState) (g : GateFlags) : ℤ :=
  goToSegment g (currentSegment st) (decide (stepPhaseAdv ctx st ≥ 1))

/-- The advanced phase clamped at 1 (src lines 169-172). -/
def stepPhaseClamped (ctx : Ctx) (st : SegGenState) : ℚ :=
  if stepPhaseAdv ctx st ≥ 1 then 1 else stepPhaseAdv ctx st

/-- The instantaneous value
`Crossfade(start, *end, WarpPhase(*phase or phase, *curve))`
(src lines 173-176). -/
def stepValue (ctx : Ctx) (st : SegGenState) : ℚ :=
  Crossfade st.start (resolve st (currentSegment st).stop)
    (WarpPhase
      (match (currentSegment st).phase with
       | some ps => resolve st ps
       | none => stepPhaseClamped ctx st)
      (resolve st (currentSegment st).curve))

/-- The smoothed output after the one-pole (src line 178). -/
def stepLp (ctx : Ctx) (st : SegGenState) : ℚ :=
  onePole st.lp (stepValue ctx st)
    (PortamentoRateToLPCoefficient ctx (resolve st (currentSegment st).portamento))

/-- The Turing-register mutation applied on a transition out of an
`advance_tm` segment (src lines 191-199). -/
def stepAdvanceTm (ctx : Ctx) (st : SegGenState) : SegGenState :=
  if (currentSegment st).advance_tm then
    { st with
      segments := setRegister st.segments st.active_segment
        (advanceTm (stepsOf (st.parameters.getD st.active_segment (0, 0)).2)
          (st.parameters.getD st.active_segment (0, 0)).1 (ctx.rand st.rng)
          (currentSegment st).shift_register (currentSegment st).bipolar).1
        (advanceTm (stepsOf (st.parameters.getD st.active_segment (0, 0)).2)
          (st.parameters.getD st.active_segment (0, 0)).1 (ctx.rand st.rng)
          (currentSegment st).shift_register (currentSegment st).bipolar).2,
      rng := st.rng + 1 }
  else st

/-- One sample of `SegmentGenerator::ProcessMultiSegment`
(src lines 162-213), returning the successor state and the emitted
output triple. -/
def processMultiSegmentStep (ctx : Ctx) (st : SegGenState) (g : GateFlags) :
    SegGenState × Output :=
  let go := stepGo ctx st g
  if go ≠ -1 then
    let st1 := stepAdvanceTm ctx st
    let destination := st1.segments.getD go.toNat dfltSegment
    let start :=
      match destination.start with
      | some s => resolve st1 s
      | none => if go.toNat = st.active_segment then st.start else stepValue ctx st
    ({ st1 with phase := 0, start := start, value := stepValue ctx st,
                lp := stepLp ctx st, active_segment := go.toNat },
     { value := stepLp ctx st, phase := 0, segment := go.toNat })
  else
    ({ st with phase := stepPhaseClamped ctx st, value := stepValue ctx st,
               lp := stepLp ctx st },
     { value := stepLp ctx st, phase := stepPhaseClamped ctx st,
       segment := st.active_segment })

/-- `ProcessMultiSegment` over a block of gate flags. -/
def processMultiSegment (ctx : Ctx) (st : SegGenState) :
    List GateFlags → List Output × SegGenState
  | [] => ([], st)
  | g :: gs =>
    let r1 := processMultiSegmentStep ctx st g
    let r2 := processMultiSegment ctx r1.1 gs
    (r1.2 :: r2.1, r2.2)

/-- A sequence of render calls: state threads from block to block, the
emitted samples are concatenated. -/
def processBlocks (ctx : Ctx) (st : SegGenState) :
    List (List GateFlags) → List Output × SegGenState
  | [] => ([], st)
  | b :: bs =>
    let r1 := processMultiSegment ctx st b
    let r2 := processBlocks ctx r1.2 bs
    (r1.1 ++ r2.1, r2.2)

/-! ## Configure (multi-segment path, src lines 650-802) -/

/-- `is_step(config)`: STEP, or TURING without loop (src lines 644-648). -/
def is_step (c : Configuration) : Bool :=
  match c.type with
  | .STEP => true
  | .TURING => !c.loop
  | _ => false

/-- Default configuration for out-of-range reads (never reached by the
source's loops). -/
def dfltConfiguration : Configuration :=
  { type := .RAMP, loop := false, bipolar := false }

/-- Result of the first `Configure` pass (src lines 664-684). -/
structure ScanResult where
  loop_start : ℤ
  loop_end : ℤ
  has_step_segments : Bool
  first_ramp_segment : ℤ

/-- First pass: loop window, STEP presence, first RAMP segment. -/
def scanConfig (cfg : List Configuration) (n : ℕ) : ScanResult :=
  (List.range n).foldl
    (fun acc i =>
      let c := cfg.getD i dfltConfiguration
      { loop_start :=
          if c.loop then (if acc.loop_start = -1 then (i : ℤ) else acc.loop_start)
          else acc.loop_start,
        loop_end := if c.loop then (i : ℤ) else acc.loop_end,
        has_step_segments := acc.has_step_segments || is_step c,
        first_ramp_segment :=
          if c.type = .RAMP ∧ acc.first_ramp_segment = -1 then (i : ℤ)
          else acc.first_ramp_segment })
    { loop_start := -1, loop_end := -1, has_step_segments := false,
      first_ramp_segment := -1 }

/-- Second scan: is any STEP-like segment inside the loop window
(src lines 686-695)? -/
def hasStepInsideLoop (cfg : List Configuration) (n : ℕ) (ls le : ℤ) : Bool :=
  if ls = -1 then false
  else (List.range n).any fun i =>
    decide (ls ≤ (i : ℤ)) && decide ((i : ℤ) ≤ le) && is_step (cfg.getD i dfltConfiguration)

/-- The `next_step` search loop of `Configure` (src lines 771-783),
fuel-bounded: each iteration is one execution of the `while` body. -/
def findNextStep (cfg : List Configuration) (n ls le : ℤ) :
    ℕ → Bool → ℤ → ℤ
  | 0, _, next_step => next_step
  | fuel + 1, follow_loop, next_step =>
    if is_step (cfg.getD next_step.toNat dfltConfiguration) then next_step
    else
      let ns1 := next_step + 1
      let pair := if follow_loop ∧ ns1 = le + 1 then (ls, false) else (ns1, follow_loop)
      if pair.1 ≥ n then n - 1
      else findNextStep cfg n ls le fuel pair.2 pair.1

/-- The `if_rising` target for segment `i` (src lines 761-788).  The
`while` loop's `follow_loop` flag starts as `loop_end != -1`. -/
def ifRisingTarget (cfg : List Configuration) (n : ℕ) (sc : ScanResult)
    (hsil : Bool) (i : ℕ) : ℤ :=
  if ¬sc.has_step_segments then 0
  else if ¬hsil ∧ sc.loop_start ≤ (i : ℤ) ∧ (i : ℤ) ≤ sc.loop_end then
    (sc.loop_end + 1) % (n : ℤ)
  else if findNextStep cfg n sc.loop_start sc.loop_end (2 * n + 2)
      (decide (sc.loop_end ≠ -1)) i = sc.loop_end then
    sc.loop_start
  else
    (findNextStep cfg n sc.loop_start sc.loop_end (2 * n + 2)
      (decide (sc.loop_end ≠ -1)) i + 1) % (n : ℤ)

/-- Second pass for segment `i` (src lines 697-789): rebuild its
indirections, flags and transition targets on top of the existing record
(which keeps `shift_register` / `register_value`). -/
def buildSegment (cfg : List Configuration) (n : ℕ) (sc : ScanResult)
    (hsil : Bool) (old : Segment) (i : ℕ) : Segment :=
  let c := cfg.getD i dfltConfiguration
  let last_segment := n - 1
  let base := { old with
    bipolar := c.bipolar, retrig := true, advance_tm := false }
  let s :=
    if c.type = .RAMP then
      let s := { base with
        retrig := !c.bipolar,
        start := if n = 1 then some .one else none,
        time := some (.primary i),
        curve := FSrc.secondary i,
        portamento := FSrc.zero,
        phase := none }
      if i = last_segment then { s with stop := .zero }
      else if (cfg.getD (i + 1) dfltConfiguration).type = .TURING then
        { s with stop := .registerValue (i + 1) }
      else if (cfg.getD (i + 1) dfltConfiguration).type ≠ .RAMP then
        { s with stop := .primary (i + 1) }
      else if (i : ℤ) = sc.first_ramp_segment then { s with stop := .one }
      else { s with stop := .secondary i, curve := .half }
    else
      let s := { base with start := some (.primary i), stop := FSrc.primary i,
                           curve := FSrc.half }
      if c.type = .STEP then
        { s with
          portamento := .secondary i,
          time := none,
          phase := if (i : ℤ) = sc.loop_start ∧ (i : ℤ) = sc.loop_end
                   then some .zero else some .one }
      else if c.type = .TURING then
        { s with
          start := some (.registerValue i), stop := .registerValue i,
          advance_tm := true,
          portamento := .zero,
          time := none,
          phase := some .zero }
      else
        { s with
          portamento := .zero,
          time := if (i : ℤ) = sc.loop_start ∧ (i : ℤ) = sc.loop_end
                  then none else some (.secondary i),
          phase := some .one }
  { s with
    if_complete := if (i : ℤ) = sc.loop_end then sc.loop_start else (i : ℤ) + 1,
    if_falling :=
      if sc.loop_end = -1 ∨ sc.loop_end = (last_segment : ℤ) ∨ sc.has_step_segments
      then -1 else sc.loop_end + 1,
    if_rising := ifRisingTarget cfg n sc hsil i }

/-- The second `Configure` pass over all `n` segments. -/
def configureFoldList (cfg : List Configuration) (n : ℕ) (sc : ScanResult)
    (hsil : Bool) (init : List Segment) : List Segment :=
  (List.range n).foldl
    (fun segs i => segs.set i (buildSegment cfg n sc hsil (segs.getD i dfltSegment) i))
    init

/-- The sentinel record written at index `num_segments`
(src lines 791-798): it mirrors the last segment's `end` pointer. -/
def sentinelSegment (segs : List Segment) (n : ℕ) (sc : ScanResult) : Segment :=
  { segs.getD n dfltSegment with
    start := some (segs.getD (n - 1) dfltSegment).stop,
    stop := (segs.getD (n - 1) dfltSegment).stop,
    time := some .zero, curve := FSrc.half, portamento := FSrc.zero,
    if_rising := 0, if_falling := -1,
    if_complete := if sc.loop_end = ((n : ℤ) - 1) then 0 else -1 }

/-- `SegmentGenerator::Configure` for `num_segments >= 2` (the
`num_segments == 1` early-return delegates to `ConfigureSingleSegment`,
which selects a single-segment kernel instead of this engine). -/
def configure (st : SegGenState) (cfg : List Configuration) (n : ℕ) : SegGenState :=
  let sc := scanConfig cfg n
  let hsil := hasStepInsideLoop cfg n sc.loop_start sc.loop_end
  let segs := configureFoldList cfg n sc hsil st.segments
  { st with
    segments := segs.set n (sentinelSegment segs n sc),
    num_segments := n,
    active_segment := n }

/-! ## RampExtractor (src/unnamed/part_002)

Arrays `history_` (kHistorySize = 8), `prediction_error_` and
`predicted_period_` (kMaxPatternPeriod + 1 = 9 entries) are embedded as
lists.  The divider ratio pair `Ratio {ratio, q}` is embedded as
`RatioRec {value, q}` (the gate rejects some source identifiers). -/

/-- The `Ratio` pair fed to `RampExtractor::Process`: a float multiplier
and an integer pulse count. -/
structure RatioRec where
  value : ℚ
  q : ℕ
deriving DecidableEq

/-- One `Pulse` history entry. -/
structure PulseRec where
  on_duration : ℕ
  total_duration : ℕ
  pulse_width : ℚ
deriving DecidableEq

def kHistorySize : ℕ := 8
def kMaxPatternPeriod : ℕ := 8
def kPulseWidthTolerance : ℚ := 5/100

/-- Default pulse for out-of-range history reads. -/
def dfltPulse : PulseRec :=
  { on_duration := 0, total_duration := 0, pulse_width := 0 }

/-- The full `RampExtractor` state. -/
structure RampState where
  sample_rate : ℚ
  max_frequency : ℚ
  audio_rate_period : ℚ
  audio_rate_period_hysteresis : ℚ
  min_period : ℚ
  min_period_hysteresis : ℚ
  audio_rate : Bool
  train_phase : ℚ
  max_train_phase : ℚ
  target_frequency : ℚ
  frequency : ℚ
  lp_coefficient : ℚ
  max_ramp_value : ℚ
  f_ratio_value : ℚ
  reset_counter : ℕ
  reset_interval : ℚ
  history : List PulseRec
  current_pulse : ℕ
  average_pulse_width : ℚ
  apw_match_count : ℕ
  prediction_error : List ℚ
  predicted_period : List ℚ
deriving DecidableEq

/-- `RampExtractor::Init` followed by `RampExtractor::Reset`
(src/unnamed/part_002 lines 55-91).  `max_train_phase_` is not assigned by
either; as firmware global state it starts zero-initialized. -/
def rampInit (sample_rate max_frequency : ℚ) : RampState :=
  let p : PulseRec :=
    { on_duration := (ratTrunc (sample_rate * (25/100))).toNat,
      total_duration := (ratTrunc (sample_rate * (50/100))).toNat,
      pulse_width := 1/2 }
  { sample_rate := sample_rate,
    max_frequency := max_frequency,
    audio_rate_period := 1 / (100 / sample_rate),
    audio_rate_period_hysteresis := 1 / (100 / sample_rate),
    min_period := 1 / max_frequency,
    min_period_hysteresis := 1 / max_frequency,
    audio_rate := false,
    train_phase := 0,
    max_train_phase := 0,
    target_frequency := 0,
    frequency := 0,
    lp_coefficient := 1/2,
    max_ramp_value := 1,
    f_ratio_value := 1,
    reset_counter := 1,
    reset_interval := 5 * sample_rate,
    history :=
      { p with on_duration := 0, total_duration := 0 } :: List.replicate 7 p,
    current_pulse := 0,
    average_pulse_width := 0,
    apw_match_count := 0,
    prediction_error := 0 :: List.replicate 8 50,
    predicted_period := List.replicate 9 (sample_rate * (50/100)) }

/-- `IsWithinTolerance(x, y, error)`. -/
def IsWithinTolerance (x y error : ℚ) : Bool :=
  decide (x ≥ y * (1 - error)) && decide (x ≤ y * (1 + error))

/-- `RampExtractor::UpdateAveragePulseWidth` (lines 93-103). -/
def UpdateAveragePulseWidth (st : RampState) (tolerance : ℚ) : RampState :=
  let cpw := (st.history.getD st.current_pulse
    dfltPulse).pulse_width
  if IsWithinTolerance st.average_pulse_width cpw tolerance then
    let c := min kHistorySize (st.apw_match_count + 1)
    let n : ℚ := (c : ℚ)
    { st with apw_match_count := c,
              average_pulse_width := ((n - 1) * st.average_pulse_width + cpw) / n }
  else
    { st with apw_match_count := 1, average_pulse_width := cpw }

/-- stmlib `SLOPE(out, in, positive, negative)`:
`error = in - out; out += (error > 0 ? positive : negative) * error`. -/
def slopeUpdate (out inp positive negative : ℚ) : ℚ :=
  let e := inp - out
  out + (if e > 0 then positive else negative) * e

/-- `RampExtractor::PredictNextPeriod` (lines 105-150): updates the
prediction errors (asymmetric SLOPE 0.7 / 0.2) and predicted periods, and
returns the predicted period of the best strategy. -/
def PredictNextPeriod (st : RampState) : RampState × ℚ :=
  let last_period : ℚ :=
    ((st.history.getD st.current_pulse
      dfltPulse).total_duration : ℚ)
  let res := (List.range (kMaxPatternPeriod + 1)).foldl
    (fun (acc : List ℚ × List ℚ × ℕ) i =>
      let e := acc.2.1.getD i 0 - last_period
      let pe := acc.1.set i (slopeUpdate (acc.1.getD i 0) (e * e) (7/10) (2/10))
      let pp :=
        if i = 0 then acc.2.1.set 0 (onePole (acc.2.1.getD 0 0) last_period (1/2))
        else acc.2.1.set i
          (((st.history.getD ((st.current_pulse + 1 + kHistorySize - i) % kHistorySize)
            dfltPulse).total_duration : ℚ))
      let best := if pe.getD i 0 < pe.getD acc.2.2 0 then i else acc.2.2
      (pe, pp, best))
    (st.prediction_error, st.predicted_period, 0)
  ({ st with prediction_error := res.1, predicted_period := res.2.1 },
   res.2.1.getD res.2.2 0)

/-- Zero the on/total durations of the pulse slot `i` (lines 236-237). -/
def zeroCurrentPulse (h : List PulseRec) (i : ℕ) : List PulseRec :=
  h.set i { h.getD i dfltPulse with
            on_duration := 0, total_duration := 0 }

/-- The reset path of the RISING-edge handler (src lines 168-175): the
overlong pulse is not recorded, the train phase hard-resets, frequency
and target both become the prediction, and the reset interval becomes
four times the long pulse's duration. -/
def resetEdge (r : RatioRec) (st : RampState) (p : PulseRec) : RampState :=
  let res := PredictNextPeriod st
  { res.1 with
    train_phase := 0,
    reset_counter := r.q,
    f_ratio_value := r.value,
    max_train_phase := (r.q : ℚ),
    frequency := 1 / res.2,
    target_frequency := 1 / res.2,
    reset_interval := 4 * (p.total_duration : ℚ) }

/-- The audio-rate path of the RISING-edge handler (src lines 177-194). -/
def audioEdge (r : RatioRec) (st : RampState) (period : ℚ) : RampState :=
  let no_glide := st.f_ratio_value ≠ r.value
  let frequency := 1 / period
  let target := min (r.value * frequency) st.max_frequency
  let up_tolerance := (102/100 + 2 * frequency) * st.frequency
  let down_tolerance := (98/100 - 2 * frequency) * st.frequency
  let no_glide := no_glide ∨ target > up_tolerance ∨ target < down_tolerance
  { st with
    audio_rate := true,
    audio_rate_period_hysteresis := st.audio_rate_period * (11/10),
    average_pulse_width := 0,
    apw_match_count := 0,
    f_ratio_value := r.value,
    target_frequency := target,
    lp_coefficient := if no_glide then 1 else period * (1/100000) }

/-- The low-rate recorded path of the RISING-edge handler
(src lines 195-232), through the final `reset_interval` assignment. -/
def lowRateEdge (r : RatioRec) (st : RampState) (p : PulseRec) (period : ℚ) :
    RampState :=
  let st := { st with
    audio_rate := false,
    audio_rate_period_hysteresis := st.audio_rate_period }
  let st :=
    if period ≤ st.min_period_hysteresis then
      { st with
        min_period_hysteresis := st.min_period * (105/100),
        frequency := 1 / max period (1 / st.sample_rate),
        average_pulse_width := 0,
        apw_match_count := 0 }
    else
      let st := { st with
        min_period_hysteresis := st.min_period,
        history := st.history.set st.current_pulse
          { p with pulse_width := (p.on_duration : ℚ) / (p.total_duration : ℚ) } }
      let st := UpdateAveragePulseWidth st kPulseWidthTolerance
      let st :=
        if p.on_duration < 32 then
          { st with average_pulse_width := 0, apw_match_count := 0 }
        else st
      let res := PredictNextPeriod st
      { res.1 with frequency := 1 / res.2 }
  let rc : ℕ := st.reset_counter - 1
  let st :=
    if rc = 0 then
      { st with
        train_phase := 0,
        reset_counter := r.q,
        f_ratio_value := r.value,
        max_train_phase := (r.q : ℚ) }
    else
      let expected := st.max_train_phase - (rc : ℚ)
      let warp := expected - st.train_phase + 1
      { st with reset_counter := rc,
                frequency := st.frequency * max warp (1/100) }
  let st := { st with target_frequency := st.f_ratio_value * st.frequency }
  { st with reset_interval :=
      ((ratTrunc (max (4 / st.target_frequency) (st.sample_rate * 3))).toNat : ℚ) }

/-- The RISING-edge handler of `RampExtractor::Process`
(lines 164-237).  `arThreshold` is computed once per `Process` call
(line 160) and passed in. -/
def handleRising (arThreshold : ℚ) (r : RatioRec) (st : RampState) : RampState :=
  let p := st.history.getD st.current_pulse dfltPulse
  let record_pulse := decide ((p.total_duration : ℚ) < st.reset_interval)
  let st :=
    if !record_pulse then
      resetEdge r st p
    else
      let period : ℚ := (p.total_duration : ℚ)
      let st :=
        if period ≤ arThreshold ∧ period > 0 then
          audioEdge r st period
        else
          lowRateEdge r st p period
      { st with current_pulse := (st.current_pulse + 1) % kHistorySize }
  { st with history := zeroCurrentPulse st.history st.current_pulse }

/-- One audio-rate sample of the render loop (lines 241-256). -/
def audioRateTick (st : RampState) (g : GateFlags) : RampState × ℚ :=
  let p := st.history.getD st.current_pulse
    dfltPulse
  let total := p.total_duration + 1
  let p := { p with total_duration := total,
                    on_duration := if g.falling then total - 1 else p.on_duration }
  let frequency := onePole st.frequency st.target_frequency st.lp_coefficient
  let train_phase := st.train_phase + frequency
  let st1 :=
    if train_phase > 1 then
      let train_phase := train_phase - 1
      if (total : ℚ) / st.f_ratio_value > (3/2) / st.target_frequency then
        { st with train_phase := 1, frequency := 0, target_frequency := 0 }
      else { st with train_phase := train_phase, frequency := frequency }
    else { st with train_phase := train_phase, frequency := frequency }
  let st2 := { st1 with history := st.history.set st.current_pulse p }
  (st2, st2.train_phase)

/-- One low-rate sample of the render loop (lines 260-282). -/
def lowRateTick (st : RampState) (g : GateFlags) : RampState × ℚ :=
  let p := st.history.getD st.current_pulse
    dfltPulse
  let total := p.total_duration + 1
  let p := { p with total_duration := total,
                    on_duration := if g.falling then total - 1 else p.on_duration }
  let frequency :=
    if g.falling ∧ st.apw_match_count ≥ kHistorySize then
      let t_on : ℚ := ((total - 1 : ℕ) : ℚ)
      let next := st.max_train_phase - (st.reset_counter : ℚ) + 1
      let pw := st.average_pulse_width
      max (next - st.train_phase) 0 * pw / ((1 - pw) * t_on)
    else st.frequency
  let train_phase := st.train_phase + frequency
  let train_phase :=
    if train_phase ≥ st.max_train_phase then st.max_train_phase else train_phase
  let phase := train_phase * st.f_ratio_value
  let phase := phase - ((ratTrunc phase : ℤ) : ℚ)
  ({ st with history := st.history.set st.current_pulse p,
             frequency := frequency, train_phase := train_phase }, phase)

/-- One full sample of `RampExtractor::Process`: handle a RISING edge,
then run the tick of the active regime.  The source's nested do/while
structure consumes exactly one sample per tick and re-checks RISING at
sample granularity, so this per-sample form is its unfolding. -/
def rampProcessStep (arThreshold : ℚ) (r : RatioRec) (st : RampState)
    (g : GateFlags) : RampState × ℚ :=
  let st := if g.rising then handleRising arThreshold r st else st
  if st.audio_rate then audioRateTick st g else lowRateTick st g

/-- `RampExtractor::Process` over a block: the audio-rate threshold is
computed once from the state at entry (line 160). -/
def rampProcess (r : RatioRec) (st : RampState) (gs : List GateFlags) :
    List ℚ × RampState :=
  let arThreshold :=
    st.audio_rate_period_hysteresis * (if r.value > 1 then r.value else 1)
  let rec go (st : RampState) : List GateFlags → List ℚ × RampState
    | [] => ([], st)
    | g :: gs =>
      let (st1, ph) := rampProcessStep arThreshold r st g
      let (ps, st2) := go st1 gs
      (ph :: ps, st2)
  go st gs

/-! ## Invariant vocabulary for the multi-segment claims -/

/-- The segment-graph part of a `Segment`: everything `Configure` wires
and `Process` must not touch (claim C8's list of fields). -/
def graphIndirections (s : Segment) :
    Option FSrc × FSrc × Option FSrc × FSrc × FSrc × Option FSrc ×
      ℤ × ℤ × ℤ × Bool × Bool × Bool :=
  (s.start, s.stop, s.time, s.curve, s.portamento, s.phase,
   s.if_rising, s.if_falling, s.if_complete, s.bipolar, s.retrig, s.advance_tm)

/-- A transition target is inhibited (-1) or a segment index in `[0, n]`. -/
def targetOK (n : ℕ) (t : ℤ) : Prop := t = -1 ∨ (0 ≤ t ∧ t ≤ (n : ℤ))

/-- All three transition targets of a segment are in range. -/
def SegTargetsOK (n : ℕ) (s : Segment) : Prop :=
  targetOK n s.if_rising ∧ targetOK n s.if_falling ∧ targetOK n s.if_complete

/-- The state invariant maintained by the multi-segment engine between
samples: phase in `[0, 1]`, the active segment at most the sentinel, and
every reachable segment's targets in range. -/
def Inv (st : SegGenState) : Prop :=
  0 ≤ st.phase ∧ st.phase ≤ 1 ∧ st.active_segment ≤ st.num_segments ∧
  ∀ i, i ≤ st.num_segments → SegTargetsOK st.num_segments (st.segments.getD i dfltSegment)

/-- The spec-modelled fact about `lut_env_frequency` (resources.h is not
among the translated sources): it tabulates frequencies, which are
nonnegative. -/
def CtxNonneg (ctx : Ctx) : Prop := ∀ i, 0 ≤ ctx.lutEnv i

/-- Default output for out-of-range reads in theorem statements. -/
def dfltOutput : Output := { value := 0, phase := 0, segment := 0 }

/-! ## Single-segment kernels (`num_segments == 1` dispatch targets)

Each kernel renders one sample at a time; per-block constants
(`RateToFrequency`/`PortamentoRateToLPCoefficient` reads, interpolated
parameters, external delay-line and gate-delay reads, random draws) are
passed in as arguments. -/

/-- `SegmentGenerator::ProcessZero` (src/stages/segment_generator.cc
lines 583-594): sets `value_ = 0`, `active_segment_ = 1` and emits a
constant sample for the whole block. -/
def processZero (size : ℕ) : List Output :=
  List.replicate size { value := 0, phase := 1/2, segment := 1 }

/-- Runtime state of `ProcessDecayEnvelope`. -/
structure DecayState where
  phase : ℚ
  active_segment : ℕ
  value : ℚ
deriving DecidableEq

/-- One sample of `ProcessDecayEnvelope` (lines 220-241);
`frequency = RateToFrequency(parameters_[0].primary)` is computed per
block and passed in, `retrig0` is `segments_[0].retrig`. -/
def processDecayStep (frequency secondary : ℚ) (retrig0 : Bool)
    (st : DecayState) (g : GateFlags) : DecayState × Output :=
  let st :=
    if g.rising && (decide (st.active_segment ≠ 0) || retrig0) then
      { st with phase := 0, active_segment := 0 }
    else st
  let phase := st.phase + frequency
  let complete := phase ≥ 1
  let phase := if complete then 1 else phase
  let active := if complete then 1 else st.active_segment
  let v := 1 - WarpPhase phase secondary
  ({ phase := phase, active_segment := active, value := v },
   { value := v, phase := phase, segment := active })

/-- One sample of `ProcessGateGenerator` (lines 273-287); `p` is the
block-interpolated primary.  Returns the new `active_segment_` and the
emitted sample (`lp_ = value_` is the emitted value). -/
def processGateStep (p : ℚ) (g : GateFlags) : ℕ × Output :=
  let active : ℕ := if g.high then 0 else 1
  let v := if active = 0 then p else 0
  (active, { value := v, phase := 1/2, segment := active })

/-- Runtime state shared by `ProcessSampleAndHold` and
`ProcessTrackAndHold`. -/
structure SHState where
  value : ℚ
  lp : ℚ
deriving DecidableEq

/-- One sample of `ProcessSampleAndHold` (lines 289-311).  `coefficient`
is the per-block portamento coefficient, `p` the interpolated primary and
`d` the gate flags read back from the 2 ms `gate_delay_` ring. -/
def processSampleAndHoldStep (coefficient p : ℚ) (st : SHState)
    (g d : GateFlags) : SHState × Output :=
  let value := if d.rising then p else st.value
  let active : ℕ := if g.high then 0 else 1
  let lp := onePole st.lp value coefficient
  ({ value := value, lp := lp },
   { value := lp, phase := 1/2, segment := active })

/-- One sample of `ProcessTrackAndHold` (lines 313-334): identical except
that `value_` tracks while the delayed gate is HIGH. -/
def processTrackAndHoldStep (coefficient p : ℚ) (st : SHState)
    (g d : GateFlags) : SHState × Output :=
  let value := if d.high then p else st.value
  let active : ℕ := if g.high then 0 else 1
  let lp := onePole st.lp value coefficient
  ({ value := value, lp := lp },
   { value := lp, phase := 1/2, segment := active })

/-- One sample of `ProcessPortamento` (lines 492-508): `value_ := p`,
one-pole toward it, emitted phase `0.5`, segment 0. -/
def processPortamentoStep (coefficient p lp : ℚ) : (ℚ × ℚ) × Output :=
  let value := p
  let lp := onePole lp value coefficient
  ((value, lp), { value := lp, phase := 1/2, segment := 0 })

/-- Runtime state of `ProcessRandom`. -/
structure RandomState where
  phase : ℚ
  value : ℚ
  lp : ℚ
  active_segment : ℕ
deriving DecidableEq

/-- One sample of `ProcessRandom` (lines 510-535); `frequency` and
`coefficient` are per-block constants and `rnd` is the
`Random::GetFloat()` draw consumed if the phase wraps this sample.  The
block entry sets `active_segment_ = 0` before the first sample. -/
def processRandomStep (coefficient frequency : ℚ) (bipolar : Bool) (rnd : ℚ)
    (st : RandomState) : RandomState × Output :=
  let phase := st.phase + frequency
  let st :=
    if phase ≥ 1 then
      { st with phase := phase - 1,
                value := if bipolar then (10/8) * (rnd - 1/2) else rnd,
                active_segment := 1 }
    else { st with phase := phase }
  let lp := onePole st.lp st.value coefficient
  ({ st with lp := lp },
   { value := lp, phase := 1/2, segment := st.active_segment })

/-- Runtime state of `ProcessTuring` (the segment 0 Turing fields plus
`value_`). -/
structure TuringState where
  shift_register : ℕ
  register_value : ℚ
  value : ℚ
deriving DecidableEq

/-- One sample of `ProcessTuring` (lines 537-557); `steps` is fixed per
block from the secondary parameter, `prob` is the interpolated primary
and `rnd` the random draw consumed on a RISING edge.  Returns the new
state, the new `active_segment_` and the emitted sample. -/
def processTuringStep (steps : ℕ) (prob rnd : ℚ) (bipolar : Bool)
    (st : TuringState) (g : GateFlags) : TuringState × ℕ × Output :=
  let st :=
    if g.rising then
      let res := advanceTm steps prob rnd st.shift_register bipolar
      { shift_register := res.1, register_value := res.2, value := res.2 }
    else st
  let active : ℕ := if g.high then 0 else 1
  (st, active, { value := st.register_value, phase := 1/2, segment := active })

/-- Runtime state of `ProcessLogistic`. -/
structure LogisticState where
  value : ℚ
  lp : ℚ
deriving DecidableEq

/-- One sample of `ProcessLogistic` (lines 559-581);
`r = 0.5 * primary + 3.5` is fixed per block.  (The block entry also
reseeds `value_` from the random stream when it is nonpositive, which
only adjusts the initial state.) -/
def processLogisticStep (coefficient r : ℚ) (bipolar : Bool)
    (st : LogisticState) (g : GateFlags) : LogisticState × ℕ × Output :=
  let value := if g.rising then st.value * (r * (1 - st.value)) else st.value
  let lp := onePole st.lp value coefficient
  let active : ℕ := if g.high then 0 else 1
  ({ value := value, lp := lp }, active,
   { value := if bipolar then (10/8) * (lp - 1/2) else lp, phase := 1/2,
     segment := active })

/-- Runtime state of `ProcessDelay` that the per-sample loop touches. -/
structure DelayState where
  phase : ℚ
  aux : ℚ
  lp : ℚ
  value : ℚ
deriving DecidableEq

/-- One sample of `ProcessDelay` (lines 451-490).  `clock_frequency` and
`delay_frequency` are fixed per block from the secondary parameter and
the line capacity, `p` is the interpolated primary and `dl` the value
read back from the external `delay_line_` (whose write on phase wrap is
a side effect outside this state).  The emitted phase is the aux phase. -/
def processDelayStep (clock_frequency delay_frequency p dl : ℚ)
    (st : DelayState) : DelayState × Output :=
  let phase := st.phase + clock_frequency
  let lp := onePole st.lp p clock_frequency
  let phase := if phase ≥ 1 then phase - 1 else phase
  let aux := st.aux + delay_frequency
  let aux := if aux ≥ 1 then aux - 1 else aux
  let active : ℕ := if aux < 1/2 then 0 else 1
  let value := onePole st.value dl clock_frequency
  ({ phase := phase, aux := aux, lp := lp, value := value },
   { value := value, phase := aux, segment := active })

/-- One sample of the static `SegmentGenerator::ShapeLFO`
(lines 596-650): rewrites `value` and `segment` from the incoming phase
and leaves `phase` itself untouched.  The per-block shape constants are
recomputed here per sample, which is equivalent because they depend only
on `shape0`.  `sine` stands for the external
`InterpolateWrap(lut_sine, x, 1024)` read. -/
def shapeLFOSample (sine : ℚ → ℚ) (shape0 : ℚ) (bipolar : Bool)
    (o : Output) : Output :=
  let sh := shape0 - 1/2
  let sh := 2 + (9999999/1000000) * sh / (1 + 3 * |sh|)
  let slope := min (sh * (1/2)) (1/2)
  let plateau_width := max (sh - 3) 0
  let sine_amount := max (if sh < 2 then sh - 1 else 3 - sh) 0
  let slope_up := 1 / slope
  let slope_down := 1 / (1 - slope)
  let plateau := (1/2) * (1 - plateau_width)
  let normalization := 1 / plateau
  let phase_shift := plateau_width * (1/4)
  let ph := o.phase + phase_shift
  let ph := if ph > 1 then ph - 1 else ph
  let triangle :=
    if ph < slope then slope_up * ph else 1 - (ph - slope) * slope_down
  let triangle := triangle - 1/2
  let triangle := constrainQ triangle (-plateau) plateau
  let triangle := triangle * normalization
  let s := sine (ph + 3/4)
  let amplitude : ℚ := if bipolar then 10/16 else 1/2
  let offset : ℚ := if bipolar then 0 else 1/2
  { value := amplitude * Crossfade triangle s sine_amount + offset,
    phase := o.phase,
    segment := if ph < 1/2 then 0 else 1 }

/-- The per-sample phase advance of `ProcessFreeRunningLFO`
(lines 440-446): accumulate modulo 1. -/
def processFreeLFOStep (frequency phase : ℚ) : ℚ :=
  let phase := phase + frequency
  if phase ≥ 1 then phase - 1 else phase

/-- One emitted sample of `ProcessFreeRunningLFO`: the advanced phase,
then `ShapeLFO` rewrites value and segment in place. -/
def freeLFOSample (sine : ℚ → ℚ) (shape : ℚ) (bipolar : Bool)
    (frequency phase : ℚ) : Output :=
  shapeLFOSample sine shape bipolar
    { value := 0, phase := processFreeLFOStep frequency phase, segment := 0 }

/-- `divider_ratios` (lines 338-346): the DEFAULT-range division table
`ProcessTapLFO` hands to the external quantizer lookup. -/
def dividerTable : List RatioRec :=
  [ { value := 249999/1000000, q := 4 }, { value := 333333/1000000, q := 3 },
    { value := 499999/1000000, q := 2 }, { value := 999999/1000000, q := 1 },
    { value := 1999999/1000000, q := 1 }, { value := 2999999/1000000, q := 1 },
    { value := 3999999/1000000, q := 1 } ]

/-- `divider_ratios_slow` (lines 348-357). -/
def dividerTableSlow : List RatioRec :=
  [ { value := 124999/1000000, q := 8 }, { value := 142856/1000000, q := 7 },
    { value := 166666/1000000, q := 6 }, { value := 199999/1000000, q := 5 },
    { value := 249999/1000000, q := 4 }, { value := 333333/1000000, q := 3 },
    { value := 499999/1000000, q := 2 }, { value := 999999/1000000, q := 1 } ]

/-- `divider_ratios_fast` (lines 359-368). -/
def dividerTableFast : List RatioRec :=
  [ { value := 999999/1000000, q := 1 }, { value := 1999999/1000000, q := 1 },
    { value := 2999999/1000000, q := 1 }, { value := 3999999/1000000, q := 1 },
    { value := 4999999/1000000, q := 1 }, { value := 5999999/1000000, q := 1 },
    { value := 6999999/1000000, q := 1 }, { value := 7999999/1000000, q := 1 } ]

/-- `SegmentGenerator::ProcessTapLFO` (lines 383-415): the external
`RampDivisionQuantizer::Lookup` picks `r` from the configured range's
divider table against `primary * 1.03`; the RampExtractor turns the gate
stream into a phase ramp, each ramp value is copied into the output
phase, and `ShapeLFO` rewrites value and segment.  `r` is passed in as
the lookup's result; the returned `ℕ` is the final `active_segment_`
(the last sample's segment). -/
def processTapLFO (sine : ℚ → ℚ) (r : RatioRec) (shape : ℚ) (bipolar : Bool)
    (st : RampState) (gs : List GateFlags) : List Output × RampState × ℕ :=
  let res := rampProcess r st gs
  let outs := res.1.map (fun ph =>
    shapeLFOSample sine shape bipolar { value := 0, phase := ph, segment := 0 })
  (outs, res.2, ((outs.getLast?).getD dfltOutput).segment)

/-- The single-segment mode selection performed by `Configure` when
`num_segments == 1` (the `ConfigureSingleSegment` call, line 655).  The
body of `ConfigureSingleSegment` is not among the repository's translated
sources; this definition follows the specification's dispatch
description: a 16-entry table indexed by
`(type << 2) | (has_trigger << 1) | bipolar`, with the basic or advanced
table variant chosen by the external multimode setting. -/
def singleSegmentModeIndex (has_trigger : Bool) (c : Configuration) : ℕ :=
  4 * (match c.type with
       | .RAMP => 0 | .STEP => 1 | .HOLD => 2 | .TURING => 3) +
    (if has_trigger then 2 else 0) + (if c.bipolar then 1 else 0)

/-- The kernel `Configure` selects for a one-segment configuration
(spec-modelled index into the source dispatch tables). -/
def singleSegmentMode (advanced has_trigger : Bool) (c : Configuration) :
    ProcessMode :=
  (if advanced then advanced_process_fn_table else process_fn_table).getD
    (singleSegmentModeIndex has_trigger c) ProcessMode.zero

/-- The range property claim C1 asserts of one emitted sample on the
`n = 1` path: phase in `[0, 1]` and segment index at most the sentinel
index 1. -/
def outputRangeOK (o : Output) : Prop :=
  0 ≤ o.phase ∧ o.phase ≤ 1 ∧ o.segment ≤ 1

/-! ## Concrete fixtures used to instantiate general theorems -/

/-- A concrete context: constant LUTs and a zero random stream. -/
def ctxW : Ctx :=
  { lutEnv := fun _ => 1, lutEnvSize := 257, lutPorta := fun _ => 0,
    rand := fun _ => 0 }

/-- A concrete post-`Init` state: seven default segments, six zero
parameter pairs, all runtime scalars zero. -/
def stW : SegGenState :=
  { segments := List.replicate 7 dfltSegment,
    parameters := List.replicate 6 (0, 0),
    phase := 0, start := 0, value := 0, lp := 0,
    active_segment := 0, num_segments := 0, rng := 0 }

/-- A concrete two-segment configuration. -/
def cfgW : List Configuration :=
  [{ type := .RAMP, loop := false, bipolar := false },
   { type := .HOLD, loop := false, bipolar := false }]

/-- One render block: a RISING edge then a quiet sample. -/
def blocksW : List (List GateFlags) :=
  [[{ rising := true, falling := false, high := true },
    { rising := false, falling := false, high := true }]]

/-- Gate stream driving the RampExtractor counterexample at sample rate 2:
a clock edge, a 12-sample pulse period (longer than the 10-sample reset
interval), then the edge that ends it. -/
def rampGatesW : List GateFlags :=
  { rising := true, falling := false, high := true } ::
    (List.replicate 5 { rising := false, falling := false, high := true } ++
      ({ rising := false, falling := true, high := false } ::
        (List.replicate 5 { rising := false, falling := false, high := false } ++
          [{ rising := true, falling := false, high := true }])))

/-- A concrete RampExtractor state whose current pulse is far longer than
the reset interval. -/
def rampStateW : RampState :=
  { rampInit 2 1 with
    history := { on_duration := 25, total_duration := 50, pulse_width := 1/2 } ::
      List.replicate 7 dfltPulse,
    current_pulse := 0 }

/-- Gate stream of the TapLFO counterexample's first render call: a
RISING edge then one quiet sample (a two-sample pulse under way). -/
def tapGatesW : List GateFlags :=
  [ { rising := true, falling := false, high := true },
    { rising := false, falling := false, high := true } ]

/-! ## Helper lemmas -/

/-- OR with `2^15` is addition when the other operand stays below `2^15`. -/
theorem lor_two_pow15_eq_add (a : ℕ) (h : a < 2 ^ 15) : a ||| 2 ^ 15 = a + 2 ^ 15 := by
  apply Nat.eq_of_testBit_eq
  intro j
  rw [Nat.testBit_lor]
  rcases lt_trichotomy j 15 with hj | hj | hj
  · have h1 : (2 ^ 15 : ℕ).testBit j = false := Nat.testBit_two_pow_of_ne (by omega)
    have hp : (2 : ℕ) ^ 15 = 2 * 2 ^ (15 - j - 1) * 2 ^ j := by
      have he : 1 + (15 - j - 1) + j = 15 := by omega
      calc (2 : ℕ) ^ 15 = 2 ^ (1 + (15 - j - 1) + j) := by rw [he]
        _ = 2 ^ 1 * 2 ^ (15 - j - 1) * 2 ^ j := by rw [pow_add, pow_add]
        _ = 2 * 2 ^ (15 - j - 1) * 2 ^ j := by norm_num
    have h2 : (a + 2 ^ 15).testBit j = a.testBit j := by
      rw [Nat.testBit_to_div_mod, Nat.testBit_to_div_mod]
      have hdiv : (a + 2 ^ 15) / 2 ^ j = a / 2 ^ j + 2 * 2 ^ (15 - j - 1) := by
        rw [hp, Nat.add_mul_div_right _ _ (Nat.two_pow_pos j)]
      rw [hdiv]
      simp only [decide_eq_decide]
      omega
    rw [h1, h2, Bool.or_false]
  · subst hj
    have h1 : (2 ^ 15 : ℕ).testBit 15 = true := Nat.testBit_two_pow_self
    have h2 : (a + 2 ^ 15).testBit 15 = true := by
      rw [Nat.testBit_to_div_mod]
      have h32 : (2 : ℕ) ^ 15 = 32768 := by norm_num
      rw [h32] at h ⊢
      simp only [decide_eq_true_eq]
      omega
    rw [h1, h2, Bool.or_true]
  · have h16 : (2 : ℕ) ^ 16 ≤ 2 ^ j := Nat.pow_le_pow_right (by norm_num) (by omega)
    have hlt : a + 2 ^ 15 < 2 ^ j := by
      have : (2 : ℕ) ^ 15 + 2 ^ 15 = 2 ^ 16 := by norm_num
      omega
    have h1 : (2 ^ 15 : ℕ).testBit j = false := Nat.testBit_two_pow_of_ne (by omega)
    have h2 : (a + 2 ^ 15).testBit j = false := Nat.testBit_eq_false_of_lt hlt
    have h3 : a.testBit j = false := Nat.testBit_eq_false_of_lt (by omega)
    rw [h1, h2, h3, Bool.or_false]

/-- At probability 0 (and a nonnegative coin draw), one `advance_tm`
register update with `steps = 16` is exactly the one-bit right rotation. -/
theorem advanceTmReg_sixteen_eq_rotate (rnd : ℚ) (sr : ℕ)
    (h0 : 0 ≤ rnd) (hsr : sr < 65536) :
    advanceTmReg 16 0 rnd sr = rotateRight16 sr := by
  have hp0 : (if (0 : ℚ) < 1/1000 then (0 : ℚ) else
      if (0 : ℚ) > 999/1000 then 11/10 else 0) = 0 := by norm_num
  simp only [advanceTmReg, rotateRight16, hp0]
  rw [if_neg (not_lt.mpr h0)]
  have hz : ((0 : ℕ) <<< 15) = 0 := by simp [Nat.shiftLeft_eq]
  rw [hz, Nat.xor_zero]
  have h32 : (32768 : ℕ) = 2 ^ 15 := by norm_num
  have hbit : (sr <<< (16 - 1)) &&& 32768 = (sr.testBit 0).toNat * 2 ^ 15 := by
    rw [h32, Nat.and_two_pow]
    congr 2
    rw [Nat.testBit_shiftLeft]
    norm_num
  rw [hbit]
  have hdiv : sr >>> 1 = sr / 2 := by
    rw [Nat.shiftRight_eq_div_pow]
  rw [hdiv]
  have hhalf : sr / 2 < 2 ^ 15 := by omega
  have htb : sr.testBit 0 = decide (sr % 2 = 1) := by
    rw [Nat.testBit_to_div_mod]
    norm_num
  rcases Nat.mod_two_eq_zero_or_one sr with hm | hm
  · rw [htb, hm]
    simp
  · rw [htb, hm]
    have h1 : ((decide ((1 : ℕ) = 1)).toNat) * 2 ^ 15 = 2 ^ 15 := by norm_num
    rw [h1, lor_two_pow15_eq_add _ hhalf]
    norm_num

/-- `rotateRight16` stays inside 16 bits. -/
theorem rotateRight16_lt (sr : ℕ) (h : sr < 65536) : rotateRight16 sr < 65536 := by
  unfold rotateRight16
  omega

/-- Closed form of iterated rotation: after `k ≤ 16` rotations the low `k`
bits have moved to the top. -/
theorem rotateRight16_iterate (k : ℕ) (hk : k ≤ 16) :
    ∀ sr, sr < 65536 →
      rotateRight16^[k] sr = sr / 2 ^ k + sr % 2 ^ k * 2 ^ (16 - k) := by
  induction k with
  | zero => intro sr _; simp [Nat.mod_one]
  | succ k ih =>
    intro sr h
    rw [Function.iterate_succ_apply', ih (by omega) sr h]
    unfold rotateRight16
    have hk15 : k ≤ 15 := by omega
    have hsplit : (2 : ℕ) ^ (16 - k) = 2 * 2 ^ (15 - k) := by
      rw [← pow_succ']
      congr 1
      omega
    have hv : sr / 2 ^ k + sr % 2 ^ k * 2 ^ (16 - k)
        = sr / 2 ^ k + 2 * (sr % 2 ^ k * 2 ^ (15 - k)) := by
      rw [hsplit]; ring
    rw [hv]
    have hdiv2 : (sr / 2 ^ k + 2 * (sr % 2 ^ k * 2 ^ (15 - k))) / 2
        = sr / 2 ^ k / 2 + sr % 2 ^ k * 2 ^ (15 - k) :=
      Nat.add_mul_div_left _ _ (by norm_num)
    have hmod2 : (sr / 2 ^ k + 2 * (sr % 2 ^ k * 2 ^ (15 - k))) % 2
        = sr / 2 ^ k % 2 := Nat.add_mul_mod_self_left _ 2 _
    rw [hdiv2, hmod2]
    have hdd : sr / 2 ^ k / 2 = sr / 2 ^ (k + 1) := by
      rw [Nat.div_div_eq_div_mul, ← pow_succ]
    have hmm : sr % 2 ^ (k + 1) = sr % 2 ^ k + 2 ^ k * (sr / 2 ^ k % 2) := by
      rw [pow_succ, Nat.mod_mul]
    have hee : (16 : ℕ) - (k + 1) = 15 - k := by omega
    have hpk : (2 : ℕ) ^ k * 2 ^ (15 - k) = 2 ^ 15 := by
      rw [← pow_add]
      congr 1
      omega
    rw [hdd, hmm, hee]
    have hexp : (sr % 2 ^ k + 2 ^ k * (sr / 2 ^ k % 2)) * 2 ^ (15 - k)
        = sr % 2 ^ k * 2 ^ (15 - k) + sr / 2 ^ k % 2 * (2 ^ k * 2 ^ (15 - k)) := by
      ring
    rw [hexp, hpk]
    have h215 : (2 : ℕ) ^ 15 = 32768 := by norm_num
    rw [h215]
    ring

/-- `Bool`-level fact used to align the code's xor-at-bit-15 with the
claim's xor-then-shift description. -/
theorem toNat_xor_shift (t c : Bool) :
    (t.toNat * 2 ^ 15) ^^^ (c.toNat <<< 15) =
      ((if Bool.xor t c then 1 else 0) : ℕ) <<< 15 := by
  cases t <;> cases c <;> decide

/-! ## Claim theorems -/

/-- Claim C3: the Turing shift-register update on RISING uses steps
`s = floor(15*secondary + 1)`, extracts bit 15 of `sr << (s-1)`, clamps
the mutation probability to 0 below 0.001 and to 1 above 0.999, XORs the
extracted bit with the coin flip, rotates
`sr = (sr >> 1) | (mutated << 15)`, and sets
`register_value = sr / 65535`, rescaled to `1.25*(v - 0.5)` when bipolar.
The hypothesis is the `Random::GetFloat()` contract: draws lie in `[0, 1)`
(only `rnd < 1` is needed). -/
theorem c3_turing_shift_register_update (secondary prob rnd : ℚ) (sr : ℕ)
    (bipolar : Bool) (h1 : rnd < 1) :
    advanceTm (stepsOf secondary) prob rnd sr bipolar =
      claimTuringUpdate secondary prob rnd sr bipolar := by
  have h32 : (32768 : ℕ) = 2 ^ 15 := by norm_num
  have hcoin : (if rnd < (if prob < 1/1000 then (0 : ℚ)
        else if prob > 999/1000 then 11/10 else prob) then (1 : ℕ) else 0)
      = (decide (rnd < (if prob < 1/1000 then (0 : ℚ)
        else if prob > 999/1000 then 1 else prob))).toNat := by
    by_cases hpa : prob < 1/1000
    · simp only [if_pos hpa]
      by_cases hr : rnd < 0 <;> simp [hr]
    · by_cases hpb : prob > 999/1000
      · simp only [if_neg hpa, if_pos hpb]
        have ht : rnd < (11/10 : ℚ) := lt_trans h1 (by norm_num)
        simp [ht, h1]
      · simp only [if_neg hpa, if_neg hpb]
        by_cases hr : rnd < prob <;> simp [hr]
  have hconst : (10 / 8 : ℚ) = 125 / 100 := by norm_num
  simp only [advanceTm, claimTuringUpdate, advanceTmReg, stepsOf, hconst]
  rw [hcoin, h32, Nat.and_two_pow, toNat_xor_shift]

/-- Witness for C3: the theorem applied at a concrete input. -/
theorem c3_witness :
    (1/2 : ℚ) < 1 ∧
    advanceTm (stepsOf 0) 1 (1/2) 5 true = claimTuringUpdate 0 1 (1/2) 5 true :=
  ⟨by norm_num, c3_turing_shift_register_update 0 1 (1/2) 5 true (by norm_num)⟩

/-- At probability 0 and a nonnegative draw, the coin never flips and the
`advance_tm` register update is pure shift-and-copy. -/
theorem advanceTmReg_prob_zero (steps : ℕ) (rnd : ℚ) (sr : ℕ) (h0 : 0 ≤ rnd) :
    advanceTmReg steps 0 rnd sr = (sr >>> 1) ||| ((sr <<< (steps - 1)) &&& 32768) := by
  have hp0 : (if (0 : ℚ) < 1/1000 then (0 : ℚ) else
      if (0 : ℚ) > 999/1000 then 11/10 else 0) = 0 := by norm_num
  simp only [advanceTmReg, hp0]
  rw [if_neg (not_lt.mpr h0)]
  have hz : ((0 : ℕ) <<< 15) = 0 := by simp [Nat.shiftLeft_eq]
  rw [hz, Nat.xor_zero]

/-- Counterexample for C4: with steps = 1 and probability 0, the update is
NOT a one-bit rotation (at register 1 it yields 0, while the rotation
yields 32768), and sixteen updates of register 1 yield 0, not the initial
value: the steps = 1 update duplicates bit 15 and discards bit 0. -/
theorem c4_counterexample :
    advanceTmReg 1 0 0 1 = 0 ∧ rotateRight16 1 = 32768 ∧
    (advanceTmReg 1 0 0)^[16] 1 = 0 ∧ (0 : ℕ) ≠ 1 := by
  have hfun : advanceTmReg 1 0 0 = fun sr => (sr >>> 1) ||| ((sr <<< 0) &&& 32768) :=
    funext fun sr => advanceTmReg_prob_zero 1 0 sr le_rfl
  refine ⟨?_, by decide, ?_, by decide⟩
  · rw [hfun]
    decide
  · rw [hfun]
    decide

/-- Claim C4 (amended): for every initial 16-bit register value, when the
mutation probability is 0 and steps = 16 (the full-length window,
`secondary = 1`), each Turing update is a pure one-bit right rotation of
the register, and after exactly 16 such updates the register equals its
initial value. -/
theorem c4_amended_rotation (rnd : ℚ) (sr : ℕ) (h0 : 0 ≤ rnd) (hsr : sr < 65536) :
    advanceTmReg 16 0 rnd sr = rotateRight16 sr ∧
    (advanceTmReg 16 0 rnd)^[16] sr = sr := by
  have hiter : ∀ (k : ℕ) (x : ℕ), x < 65536 →
      (advanceTmReg 16 0 rnd)^[k] x = rotateRight16^[k] x := by
    intro k
    induction k with
    | zero => intro x _; rfl
    | succ k ih =>
      intro x hx
      rw [Function.iterate_succ_apply, Function.iterate_succ_apply,
        advanceTmReg_sixteen_eq_rotate rnd x h0 hx]
      exact ih (rotateRight16 x) (rotateRight16_lt x hx)
  refine ⟨advanceTmReg_sixteen_eq_rotate rnd sr h0 hsr, ?_⟩
  rw [hiter 16 sr hsr, rotateRight16_iterate 16 le_rfl sr hsr]
  have h216 : (2 : ℕ) ^ 16 = 65536 := by norm_num
  rw [h216]
  omega

/-- Witness for C4's amended theorem at a concrete register. -/
theorem c4_amended_witness :
    (0 : ℚ) ≤ 0 ∧ (41 : ℕ) < 65536 ∧
    advanceTmReg 16 0 0 41 = rotateRight16 41 ∧
    (advanceTmReg 16 0 0)^[16] 41 = 41 :=
  ⟨le_refl 0, by norm_num,
    (c4_amended_rotation 0 41 (le_refl 0) (by norm_num)).1,
    (c4_amended_rotation 0 41 (le_refl 0) (by norm_num)).2⟩

/-- Counterexample for C5: at `primary = 2` (offset 144 semitones) the
code clamps the offset to 127 while the claim's clamp range of plus-minus
128 semitones keeps 128, so the frequencies differ (shown with the
identity function in place of the external `SemitonesToRatio` table,
which is strictly increasing like the real one). -/
theorem c5_counterexample :
    freeRunningLFOFrequency id 31250 2 Range.DEFAULT false ≠
      claimFreeLFOFrequency id 31250 2 Range.DEFAULT false := by
  simp only [freeRunningLFOFrequency, claimFreeLFOFrequency, constrainQ, id]
  norm_num

/-- Claim C5 (amended): the FreeLFO per-sample frequency equals
`SemitonesToRatio(96*(primary-0.5)) * 2.0439497 / SR` with the semitone
offset clamped to `[-128, 127]`; SLOW divides by 16; FAST multiplies by
64 and clamps to at most `7040/SR`; the STAGES_SLOW_LFO multimode then
divides by 8. -/
theorem c5_amended_frequency (str : ℚ → ℚ) (sampleRate primary : ℚ)
    (range : Range) (slowMode : Bool) :
    freeRunningLFOFrequency str sampleRate primary range slowMode =
      amendedFreeLFOFrequency str sampleRate primary range slowMode := by
  unfold freeRunningLFOFrequency amendedFreeLFOFrequency constrainQ
  have hcl : (if 96 * (primary - 1/2) < -128 then (-128 : ℚ)
      else if 96 * (primary - 1/2) > 127 then 127 else 96 * (primary - 1/2))
      = max (-128) (min 127 (96 * (primary - 1/2))) := by
    split_ifs with ha hb
    · rw [min_eq_right (by linarith), max_eq_left (by linarith)]
    · rw [min_eq_left (by linarith), max_eq_right (by norm_num)]
    · rw [min_eq_right (by linarith), max_eq_right (by linarith)]
  rw [hcl]

/-- Claim C7: the basic and advanced 16-entry dispatch tables agree on
every entry except index 7 (STEP row, has_trigger and bipolar set), where
basic has Sample-and-Hold and advanced has Track-and-Hold, and indices
12-15 (the TURING row), where basic has the zero-output kernel four times
and advanced has Random, Random, Turing, Logistic. -/
theorem c7_dispatch_tables :
    ((List.range 16).all fun i =>
      decide (i = 7) || decide (12 ≤ i) ||
        decide (process_fn_table.getD i ProcessMode.zero =
          advanced_process_fn_table.getD i ProcessMode.zero)) = true
    ∧ process_fn_table.getD 7 ProcessMode.zero = ProcessMode.sampleAndHold
    ∧ advanced_process_fn_table.getD 7 ProcessMode.zero = ProcessMode.trackAndHold
    ∧ process_fn_table.getD 12 ProcessMode.zero = ProcessMode.zero
    ∧ process_fn_table.getD 13 ProcessMode.zero = ProcessMode.zero
    ∧ process_fn_table.getD 14 ProcessMode.zero = ProcessMode.zero
    ∧ process_fn_table.getD 15 ProcessMode.zero = ProcessMode.zero
    ∧ advanced_process_fn_table.getD 12 ProcessMode.zero = ProcessMode.random
    ∧ advanced_process_fn_table.getD 13 ProcessMode.zero = ProcessMode.random
    ∧ advanced_process_fn_table.getD 14 ProcessMode.zero = ProcessMode.turing
    ∧ advanced_process_fn_table.getD 15 ProcessMode.zero = ProcessMode.logistic
    ∧ process_fn_table.length = 16
    ∧ advanced_process_fn_table.length = 16
    ∧ ((List.range 4).all fun k =>
        decide (process_fn_table.getD (12 + k) ProcessMode.zero ≠
          advanced_process_fn_table.getD (12 + k) ProcessMode.zero)) = true := by
  decide

/-- Counterexample for C9: the portamento-rate lookup applies no
saturation at all; at rate -1 its index is -512, below any table's lower
bound 0, so the lookup is out of bounds. -/
theorem c9_counterexample :
    portamentoIndex (-1) = -512 ∧ portamentoIndex (-1) < 0 := by
  have hv : portamentoIndex (-1) = -512 := by
    unfold portamentoIndex ratTrunc
    rw [if_neg (by norm_num)]
    rw [show ((-1 : ℚ) * 512) = ((-512 : ℤ) : ℚ) by norm_num]
    rw [Int.ceil_intCast]
  exact ⟨hv, by rw [hv]; norm_num⟩

/-- Claim C9 (amended): the rate-to-frequency index saturates to
`[0, LUT_ENV_FREQUENCY_SIZE]` for every input, but the
portamento-rate-to-coefficient index is the raw truncation of
`rate * 512`: it is within `[0, size)` only when `0 <= rate` and
`rate * 512 < size`, it is negative (out of bounds) whenever
`rate <= -1/512`, and it reaches or exceeds any table size once
`rate * 512 >= size`. -/
theorem c9_amended_saturation :
    (∀ (size : ℤ) (rate : ℚ), 0 ≤ size →
      0 ≤ rateToFrequencyIndex size rate ∧ rateToFrequencyIndex size rate ≤ size)
    ∧ (∀ (size : ℤ) (rate : ℚ), 0 ≤ rate → rate * 512 < (size : ℚ) →
      0 ≤ portamentoIndex rate ∧ portamentoIndex rate < size)
    ∧ (∀ rate : ℚ, rate ≤ -1/512 → portamentoIndex rate < 0)
    ∧ (∀ (size : ℤ) (rate : ℚ), 0 ≤ size → (size : ℚ) ≤ rate * 512 →
      size ≤ portamentoIndex rate) := by
  refine ⟨?_, ?_, ?_, ?_⟩
  · intro size rate hsize
    unfold rateToFrequencyIndex constrain
    split_ifs <;> omega
  · intro size rate hr hlt
    have h0 : (0 : ℚ) ≤ rate * 512 := by positivity
    unfold portamentoIndex ratTrunc
    rw [if_pos h0]
    constructor
    · exact Int.floor_nonneg.mpr h0
    · exact Int.floor_lt.mpr hlt
  · intro rate hr
    have hm : rate * 512 ≤ -1 := by nlinarith
    unfold portamentoIndex ratTrunc
    rw [if_neg (by linarith)]
    have : ⌈rate * 512⌉ ≤ -1 := Int.ceil_le.mpr (by exact_mod_cast hm)
    omega
  · intro size rate hsize hge
    have h0 : (0 : ℚ) ≤ rate * 512 := le_trans (by exact_mod_cast hsize) hge
    unfold portamentoIndex ratTrunc
    rw [if_pos h0]
    exact Int.le_floor.mpr hge

/-- Witness for C9's amended theorem at concrete inputs. -/
theorem c9_amended_witness :
    (0 : ℤ) ≤ 257 ∧
    0 ≤ rateToFrequencyIndex 257 3 ∧ rateToFrequencyIndex 257 3 ≤ 257 ∧
    (-1 : ℚ) ≤ -1/512 ∧ portamentoIndex (-1) < 0 :=
  ⟨by norm_num,
    (c9_amended_saturation.1 257 3 (by norm_num)).1,
    (c9_amended_saturation.1 257 3 (by norm_num)).2,
    by norm_num,
    c9_amended_saturation.2.2.1 (-1) (by norm_num)⟩

/-- Claim C10: in the TimedPulse kernel the 32-sample disarm
(`retrig_delay = kRetrigDelaySamples`) is applied on a RISING edge only
when the pulse segment is already active (`active_segment == 0`), in which
case the post-sample counter is 31 and the emitted sample is 0 (the
"tooth"); a RISING edge from the rest state sets `retrig_delay` to 0 and
the pulse output starts immediately (the emitted sample is the primary
value whenever the pulse does not complete within the same sample,
i.e. `frequency < 1`). -/
theorem c10_timed_pulse_retrig_disarm (frequency p : ℚ) (retrig0 : Bool)
    (st : TimedPulseState) (g : GateFlags) (hr : g.rising = true) :
    (st.active_segment = 0 → retrig0 = true →
      ((processTimedPulseStep frequency p retrig0 st g).1.retrig_delay
          = kRetrigDelaySamples - 1 ∧
        (processTimedPulseStep frequency p retrig0 st g).2.value = 0)) ∧
    (st.active_segment ≠ 0 →
      ((processTimedPulseStep frequency p retrig0 st g).1.retrig_delay = 0 ∧
        (frequency < 1 →
          (processTimedPulseStep frequency p retrig0 st g).2.value = p))) := by
  constructor
  · intro ha hrt
    simp only [processTimedPulseStep, hr, ha, hrt, kRetrigDelaySamples]
    norm_num
  · intro ha
    have ha2 : (st.active_segment = 0) = False := by simp [ha]
    simp only [processTimedPulseStep, hr, kRetrigDelaySamples]
    norm_num [ha2]
    intro hf hc
    linarith

/-- Witness for C10 at concrete inputs: a retrigger while active arms the
tooth; a trigger from rest does not. -/
theorem c10_witness :
    (let g : GateFlags := { rising := true, falling := false, high := true }
     let stActive : TimedPulseState :=
       { phase := 1/2, active_segment := 0, retrig_delay := 0, value := 1 }
     let stRest : TimedPulseState :=
       { phase := 1, active_segment := 1, retrig_delay := 0, value := 0 }
     g.rising = true ∧ stActive.active_segment = 0 ∧ stRest.active_segment ≠ 0 ∧
     (1/4 : ℚ) < 1 ∧
     (processTimedPulseStep (1/4) (3/5) true stActive g).1.retrig_delay
        = kRetrigDelaySamples - 1 ∧
     (processTimedPulseStep (1/4) (3/5) true stActive g).2.value = 0 ∧
     (processTimedPulseStep (1/4) (3/5) true stRest g).1.retrig_delay = 0 ∧
     (processTimedPulseStep (1/4) (3/5) true stRest g).2.value = 3/5) := by
  refine ⟨rfl, rfl, by norm_num, by norm_num, ?_, ?_, ?_, ?_⟩
  · exact (c10_timed_pulse_retrig_disarm (1/4) (3/5) true
      { phase := 1/2, active_segment := 0, retrig_delay := 0, value := 1 }
      { rising := true, falling := false, high := true } rfl).1 rfl rfl |>.1
  · exact (c10_timed_pulse_retrig_disarm (1/4) (3/5) true
      { phase := 1/2, active_segment := 0, retrig_delay := 0, value := 1 }
      { rising := true, falling := false, high := true } rfl).1 rfl rfl |>.2
  · exact ((c10_timed_pulse_retrig_disarm (1/4) (3/5) true
      { phase := 1, active_segment := 1, retrig_delay := 0, value := 0 }
      { rising := true, falling := false, high := true } rfl).2 (by norm_num)).1
  · exact ((c10_timed_pulse_retrig_disarm (1/4) (3/5) true
      { phase := 1, active_segment := 1, retrig_delay := 0, value := 0 }
      { rising := true, falling := false, high := true } rfl).2 (by norm_num)).2
      (by norm_num)

/-- Claim C2: in the multi-segment engine the next-state transition
target follows the priority RISING-with-retrig, then FALLING, then
completion, with -1 meaning no transition: the post-sample active segment
is the chosen target unless the chain yields -1, in which case it is
unchanged. -/
theorem c2_transition_priority (ctx : Ctx) (st : SegGenState) (g : GateFlags) :
    (processMultiSegmentStep ctx st g).1.active_segment =
      (let segment := st.segments.getD st.active_segment dfltSegment
       let phaseAdv :=
         match segment.time with
         | some t => st.phase + RateToFrequency ctx (resolve st t)
         | none => st.phase
       let target : ℤ :=
         if g.rising && segment.retrig then segment.if_rising
         else if g.falling then segment.if_falling
         else if phaseAdv ≥ 1 then segment.if_complete
         else -1
       if target = -1 then st.active_segment else target.toNat) := by
  simp only [processMultiSegmentStep, stepGo, goToSegment, currentSegment, stepPhaseAdv]
  split_ifs <;> simp_all <;> linarith

/-- `setRegister` only touches the Turing state: the graph part of every
segment is unchanged. -/
theorem setRegister_graph (segs : List Segment) (i sr : ℕ) (rv : ℚ) (j : ℕ) :
    graphIndirections ((setRegister segs i sr rv).getD j dfltSegment) =
      graphIndirections (segs.getD j dfltSegment) := by
  unfold setRegister
  by_cases hlen : i < segs.length
  · by_cases hij : i = j
    · subst hij
      rw [List.getD_eq_getElem?_getD, List.getElem?_set_self, List.getD_eq_getElem?_getD]
      · rw [List.getElem?_eq_getElem hlen]
        simp [graphIndirections, List.getD_eq_getElem?_getD, List.getElem?_eq_getElem hlen]
      · exact hlen
    · rw [List.getD_eq_getElem?_getD, List.getElem?_set_ne hij,
        ← List.getD_eq_getElem?_getD]
  · rw [List.set_eq_of_length_le (by omega)]

/-- `setRegister` leaves all transition targets alone. -/
theorem setRegister_targets (n : ℕ) (segs : List Segment) (i sr : ℕ) (rv : ℚ) (j : ℕ) :
    SegTargetsOK n ((setRegister segs i sr rv).getD j dfltSegment) ↔
      SegTargetsOK n (segs.getD j dfltSegment) := by
  have h := setRegister_graph segs i sr rv j
  unfold graphIndirections at h
  unfold SegTargetsOK
  rw [Prod.mk.injEq] at h
  simp only [Prod.mk.injEq] at h
  obtain ⟨-, -, -, -, -, -, h7, h8, h9, -⟩ := h
  rw [h7, h8, h9]

/-- The Turing mutation on a transition does not change any segment's
graph part. -/
theorem stepAdvanceTm_graph (ctx : Ctx) (st : SegGenState) (j : ℕ) :
    graphIndirections ((stepAdvanceTm ctx st).segments.getD j dfltSegment) =
      graphIndirections (st.segments.getD j dfltSegment) := by
  unfold stepAdvanceTm
  split_ifs
  · exact setRegister_graph st.segments st.active_segment _ _ j
  · rfl

/-- One sample of the multi-segment engine does not change any segment's
graph part. -/
theorem step_graph (ctx : Ctx) (st : SegGenState) (g : GateFlags) (j : ℕ) :
    graphIndirections
        ((processMultiSegmentStep ctx st g).1.segments.getD j dfltSegment) =
      graphIndirections (st.segments.getD j dfltSegment) := by
  simp only [processMultiSegmentStep]
  split_ifs <;>
    first
      | rfl
      | exact stepAdvanceTm_graph ctx st j

/-- Claim C8: between two Configure calls, render calls mutate only
runtime state: every segment's indirections (start, end, time, curve,
portamento, phase), transition indices (if_rising, if_falling,
if_complete) and flags (bipolar, retrig, advance_tm) are identical before
and after any `ProcessMultiSegment` call, for every segment slot. -/
theorem c8_process_mutates_only_runtime_state (ctx : Ctx) (gs : List GateFlags)
    (st : SegGenState) (j : ℕ) :
    graphIndirections
        (((processMultiSegment ctx st gs).2).segments.getD j dfltSegment) =
      graphIndirections (st.segments.getD j dfltSegment) := by
  induction gs generalizing st with
  | nil => rfl
  | cons g gs ih =>
    have h1 : (processMultiSegment ctx st (g :: gs)).2
        = (processMultiSegment ctx (processMultiSegmentStep ctx st g).1 gs).2 := rfl
    rw [h1, ih (processMultiSegmentStep ctx st g).1]
    exact step_graph ctx st g j

/-- The chosen transition is one of the three wired targets or -1. -/
theorem goToSegment_mem (g : GateFlags) (s : Segment) (c : Bool) :
    goToSegment g s c = s.if_rising ∨ goToSegment g s c = s.if_falling ∨
      goToSegment g s c = s.if_complete ∨ goToSegment g s c = -1 := by
  unfold goToSegment
  split_ifs <;> tauto

/-- The loop window recorded by the first `Configure` pass. -/
def ScanOK (n : ℕ) (sc : ScanResult) : Prop :=
  (sc.loop_start = -1 ∧ sc.loop_end = -1) ∨
  (0 ≤ sc.loop_start ∧ sc.loop_start ≤ sc.loop_end ∧ sc.loop_end ≤ (n : ℤ) - 1)

/-- The first pass always yields a well-formed loop window. -/
theorem scanConfig_ok (cfg : List Configuration) (n : ℕ) :
    ScanOK n (scanConfig cfg n) := by
  induction n with
  | zero =>
    left
    exact ⟨rfl, rfl⟩
  | succ n ih =>
    have hstep : scanConfig cfg (n + 1) =
        (let acc := scanConfig cfg n
         let c := cfg.getD n dfltConfiguration
         { loop_start :=
             if c.loop then (if acc.loop_start = -1 then (n : ℤ) else acc.loop_start)
             else acc.loop_start,
           loop_end := if c.loop then (n : ℤ) else acc.loop_end,
           has_step_segments := acc.has_step_segments || is_step c,
           first_ramp_segment :=
             if c.type = .RAMP ∧ acc.first_ramp_segment = -1 then (n : ℤ)
             else acc.first_ramp_segment }) := by
      unfold scanConfig
      rw [List.range_succ, List.foldl_append]
      rfl
    rw [hstep]
    rcases ih with ⟨h1, h2⟩ | ⟨h1, h2, h3⟩
    · by_cases hl : (cfg.getD n dfltConfiguration).loop
      · right
        simp only [hl, if_pos, h1, h2, if_true]
        norm_num
      · left
        simp only [hl, if_false]
        exact ⟨h1, h2⟩
    · by_cases hl : (cfg.getD n dfltConfiguration).loop
      · right
        have hne : ¬ (scanConfig cfg n).loop_start = -1 := by omega
        simp only [hl, if_true, hne, if_false]
        refine ⟨h1, by omega, by omega⟩
      · right
        simp only [hl, if_false]
        exact ⟨h1, h2, by omega⟩

/-- The `next_step` search stays inside `[0, n-1]`. -/
theorem findNextStep_bounds (cfg : List Configuration) (n ls le : ℤ) (hn : 1 ≤ n) :
    ∀ (fuel : ℕ) (follow : Bool) (ns : ℤ), 0 ≤ ns → ns ≤ n - 1 →
      (follow = true → 0 ≤ ls ∧ ls ≤ n - 1) →
      0 ≤ findNextStep cfg n ls le fuel follow ns ∧
        findNextStep cfg n ls le fuel follow ns ≤ n - 1 := by
  intro fuel
  induction fuel with
  | zero =>
    intro follow ns h0 h1 _
    exact ⟨h0, h1⟩
  | succ fuel ih =>
    intro follow ns h0 h1 hfollow
    unfold findNextStep
    split_ifs with hstep
    · exact ⟨h0, h1⟩
    · by_cases hj : follow = true ∧ ns + 1 = le + 1
      · simp only [if_pos hj]
        have hls := hfollow hj.1
        split_ifs with hge
        · constructor <;> omega
        · exact ih false ls hls.1 hls.2 (by simp)
      · simp only [if_neg hj]
        split_ifs with hge
        · constructor <;> omega
        · exact ih follow (ns + 1) (by omega) (by omega) hfollow

/-- The `if_rising` target computed by `Configure` is a real segment
index in `[0, n-1]`. -/
theorem ifRisingTarget_bounds (cfg : List Configuration) (n : ℕ) (sc : ScanResult)
    (hsil : Bool) (i : ℕ) (hn : 2 ≤ n) (hsc : ScanOK n sc) (hi : i < n) :
    0 ≤ ifRisingTarget cfg n sc hsil i ∧
      ifRisingTarget cfg n sc hsil i ≤ (n : ℤ) - 1 := by
  have hnz : (n : ℤ) ≠ 0 := by omega
  have hnpos : (0 : ℤ) < n := by omega
  have hb := findNextStep_bounds cfg n sc.loop_start sc.loop_end (by omega)
    (2 * n + 2) (decide (sc.loop_end ≠ -1)) i (by omega) (by omega)
    (by
      intro hf
      rcases hsc with ⟨ha, hbv⟩ | ⟨ha, hbv, hcv⟩
      · rw [decide_eq_true_eq] at hf
        exact absurd hbv hf
      · constructor <;> omega)
  unfold ifRisingTarget
  split_ifs with h1 h2 h3
  all_goals constructor
  all_goals first
    | omega
    | exact Int.emod_nonneg _ hnz
    | (have hm : _ := Int.emod_lt_of_pos (sc.loop_end + 1) hnpos; omega)
    | (have hm : _ := Int.emod_lt_of_pos
        (findNextStep cfg n sc.loop_start sc.loop_end (2 * n + 2)
          (decide (sc.loop_end ≠ -1)) i + 1) hnpos
       omega)
    | (rcases hsc with ⟨ha, hb2⟩ | ⟨ha, hb2, hc2⟩ <;> omega)

/-- The record-update structure of `buildSegment` exposes the three
transition targets directly. -/
theorem buildSegment_if_rising (cfg : List Configuration) (n : ℕ) (sc : ScanResult)
    (hsil : Bool) (old : Segment) (i : ℕ) :
    (buildSegment cfg n sc hsil old i).if_rising = ifRisingTarget cfg n sc hsil i := rfl

theorem buildSegment_if_falling (cfg : List Configuration) (n : ℕ) (sc : ScanResult)
    (hsil : Bool) (old : Segment) (i : ℕ) :
    (buildSegment cfg n sc hsil old i).if_falling =
      (if sc.loop_end = -1 ∨ sc.loop_end = ((n - 1 : ℕ) : ℤ) ∨ sc.has_step_segments
       then -1 else sc.loop_end + 1) := rfl

theorem buildSegment_if_complete (cfg : List Configuration) (n : ℕ) (sc : ScanResult)
    (hsil : Bool) (old : Segment) (i : ℕ) :
    (buildSegment cfg n sc hsil old i).if_complete =
      (if (i : ℤ) = sc.loop_end then sc.loop_start else (i : ℤ) + 1) := rfl

/-- Every segment the second `Configure` pass builds has its transition
targets inside `[-1] ∪ [0, n]`. -/
theorem buildSegment_targets (cfg : List Configuration) (n : ℕ) (sc : ScanResult)
    (hsil : Bool) (old : Segment) (i : ℕ)
    (hn : 2 ≤ n) (hsc : ScanOK n sc) (hi : i < n) :
    SegTargetsOK n (buildSegment cfg n sc hsil old i) := by
  have hr := ifRisingTarget_bounds cfg n sc hsil i hn hsc hi
  refine ⟨?_, ?_, ?_⟩
  · rw [buildSegment_if_rising]
    right
    constructor <;> omega
  · rw [buildSegment_if_falling]
    split_ifs with h
    · left; rfl
    · right
      rcases hsc with ⟨ha, hb⟩ | ⟨ha, hb, hc⟩
      · exact absurd ha (by tauto)
      · constructor <;> omega
  · rw [buildSegment_if_complete]
    split_ifs with h
    · rcases hsc with ⟨ha, hb⟩ | ⟨ha, hb, hc⟩
      · omega
      · right; constructor <;> omega
    · right
      constructor <;> omega

/-- The fold of the second `Configure` pass: length is preserved, every
index below `m` holds a freshly built segment, every index at or above
`m` is untouched. -/
theorem configureFold_spec (cfg : List Configuration) (nn : ℕ) (sc : ScanResult)
    (hsil : Bool) :
    ∀ (m : ℕ) (segs : List Segment), m ≤ segs.length →
      (((List.range m).foldl
          (fun segs i => segs.set i (buildSegment cfg nn sc hsil (segs.getD i dfltSegment) i))
          segs).length = segs.length) ∧
      (∀ j, j < m → ∃ old,
        ((List.range m).foldl
          (fun segs i => segs.set i (buildSegment cfg nn sc hsil (segs.getD i dfltSegment) i))
          segs).getD j dfltSegment = buildSegment cfg nn sc hsil old j) ∧
      (∀ j, m ≤ j →
        ((List.range m).foldl
          (fun segs i => segs.set i (buildSegment cfg nn sc hsil (segs.getD i dfltSegment) i))
          segs).getD j dfltSegment = segs.getD j dfltSegment) := by
  intro m
  induction m with
  | zero =>
    intro segs _
    exact ⟨rfl, by intro j hj; omega, by intro j _; rfl⟩
  | succ m ih =>
    intro segs hm
    obtain ⟨ihlen, ihnew, ihold⟩ := ih segs (by omega)
    have hstep : (List.range (m + 1)).foldl
        (fun segs i => segs.set i (buildSegment cfg nn sc hsil (segs.getD i dfltSegment) i))
        segs =
        ((List.range m).foldl
          (fun segs i => segs.set i (buildSegment cfg nn sc hsil (segs.getD i dfltSegment) i))
          segs).set m
          (buildSegment cfg nn sc hsil
            (((List.range m).foldl
              (fun segs i => segs.set i (buildSegment cfg nn sc hsil (segs.getD i dfltSegment) i))
              segs).getD m dfltSegment) m) := by
      rw [List.range_succ, List.foldl_append]
      rfl
    rw [hstep]
    have hmlt : m < ((List.range m).foldl
        (fun segs i => segs.set i (buildSegment cfg nn sc hsil (segs.getD i dfltSegment) i))
        segs).length := by omega
    refine ⟨by rw [List.length_set, ihlen], ?_, ?_⟩
    · intro j hj
      by_cases hjm : j = m
      · refine ⟨((List.range m).foldl
            (fun segs i => segs.set i (buildSegment cfg nn sc hsil (segs.getD i dfltSegment) i))
            segs).getD m dfltSegment, ?_⟩
        rw [hjm, List.getD_eq_getElem?_getD, List.getElem?_set_self hmlt]
        rfl
      · rw [List.getD_eq_getElem?_getD, List.getElem?_set_ne (by omega),
          ← List.getD_eq_getElem?_getD]
        exact ihnew j (by omega)
    · intro j hj
      rw [List.getD_eq_getElem?_getD, List.getElem?_set_ne (by omega),
        ← List.getD_eq_getElem?_getD]
      exact ihold j (by omega)

/-- The sentinel's transition targets are in range. -/
theorem sentinelSegment_targets (segs : List Segment) (n : ℕ) (sc : ScanResult) :
    SegTargetsOK n (sentinelSegment segs n sc) := by
  have h1 : (sentinelSegment segs n sc).if_rising = 0 := rfl
  have h2 : (sentinelSegment segs n sc).if_falling = -1 := rfl
  have h3 : (sentinelSegment segs n sc).if_complete =
      (if sc.loop_end = ((n : ℤ) - 1) then 0 else -1) := rfl
  refine ⟨?_, ?_, ?_⟩
  · rw [targetOK, h1]
    right
    constructor <;> omega
  · rw [targetOK, h2]
    left
    rfl
  · rw [targetOK, h3]
    split_ifs
    · right
      constructor <;> omega
    · left
      rfl

/-- After `Configure` (multi-segment path) the invariant holds: the
active segment is the sentinel `n`, every reachable segment's targets
are in `[-1] ∪ [0, n]`, and the runtime phase is untouched. -/
theorem configure_inv (st : SegGenState) (cfg : List Configuration) (n : ℕ)
    (hn2 : 2 ≤ n) (hn6 : n ≤ 6) (h7 : st.segments.length = 7)
    (hp0 : 0 ≤ st.phase) (hp1 : st.phase ≤ 1) :
    Inv (configure st cfg n) ∧
    (configure st cfg n).num_segments = n ∧
    (configure st cfg n).active_segment = n ∧
    (configure st cfg n).segments.length = 7 := by
  have hsc := scanConfig_ok cfg n
  obtain ⟨hflen, hfnew, hfold⟩ :=
    configureFold_spec cfg n (scanConfig cfg n)
      (hasStepInsideLoop cfg n (scanConfig cfg n).loop_start (scanConfig cfg n).loop_end)
      n st.segments (by omega)
  have hsegs : (configure st cfg n).segments =
      (configureFoldList cfg n (scanConfig cfg n)
        (hasStepInsideLoop cfg n (scanConfig cfg n).loop_start (scanConfig cfg n).loop_end)
        st.segments).set n
        (sentinelSegment
          (configureFoldList cfg n (scanConfig cfg n)
            (hasStepInsideLoop cfg n (scanConfig cfg n).loop_start (scanConfig cfg n).loop_end)
            st.segments)
          n (scanConfig cfg n)) := rfl
  have hfoldlen : (configureFoldList cfg n (scanConfig cfg n)
      (hasStepInsideLoop cfg n (scanConfig cfg n).loop_start (scanConfig cfg n).loop_end)
      st.segments).length = 7 := by
    rw [show configureFoldList cfg n (scanConfig cfg n)
        (hasStepInsideLoop cfg n (scanConfig cfg n).loop_start (scanConfig cfg n).loop_end)
        st.segments =
      (List.range n).foldl
        (fun segs i => segs.set i
          (buildSegment cfg n (scanConfig cfg n)
            (hasStepInsideLoop cfg n (scanConfig cfg n).loop_start (scanConfig cfg n).loop_end)
            (segs.getD i dfltSegment) i)) st.segments from rfl, hflen, h7]
  have hlen : (configure st cfg n).segments.length = 7 := by
    rw [hsegs, List.length_set, hfoldlen]
  refine ⟨⟨hp0, hp1, le_refl n, ?_⟩, rfl, rfl, hlen⟩
  intro i hi
  have hnum : (configure st cfg n).num_segments = n := rfl
  rw [hnum] at hi
  rw [hnum, hsegs]
  by_cases hin : i = n
  · subst hin
    rw [List.getD_eq_getElem?_getD, List.getElem?_set_self (by omega)]
    exact sentinelSegment_targets _ _ _
  · rw [List.getD_eq_getElem?_getD, List.getElem?_set_ne (by omega),
      ← List.getD_eq_getElem?_getD]
    obtain ⟨old, hold⟩ := hfnew i (by omega)
    rw [show configureFoldList cfg n (scanConfig cfg n)
        (hasStepInsideLoop cfg n (scanConfig cfg n).loop_start (scanConfig cfg n).loop_end)
        st.segments =
      (List.range n).foldl
        (fun segs i => segs.set i
          (buildSegment cfg n (scanConfig cfg n)
            (hasStepInsideLoop cfg n (scanConfig cfg n).loop_start (scanConfig cfg n).loop_end)
            (segs.getD i dfltSegment) i)) st.segments from rfl, hold]
    exact buildSegment_targets cfg n (scanConfig cfg n) _ old i hn2 hsc (by omega)

/-- `stepAdvanceTm` keeps lengths, targets, and all scalar runtime state
other than the register. -/
theorem stepAdvanceTm_fields (ctx : Ctx) (st : SegGenState) :
    (stepAdvanceTm ctx st).num_segments = st.num_segments ∧
    (stepAdvanceTm ctx st).segments.length = st.segments.length ∧
    (stepAdvanceTm ctx st).active_segment = st.active_segment ∧
    (stepAdvanceTm ctx st).phase = st.phase := by
  unfold stepAdvanceTm
  split_ifs
  · exact ⟨rfl, by simp [setRegister, List.length_set], rfl, rfl⟩
  · exact ⟨rfl, rfl, rfl, rfl⟩

/-- Targets are unchanged by `stepAdvanceTm`. -/
theorem stepAdvanceTm_targets (ctx : Ctx) (st : SegGenState) (n j : ℕ) :
    SegTargetsOK n ((stepAdvanceTm ctx st).segments.getD j dfltSegment) ↔
      SegTargetsOK n (st.segments.getD j dfltSegment) := by
  have h := stepAdvanceTm_graph ctx st j
  unfold graphIndirections at h
  simp only [Prod.mk.injEq] at h
  obtain ⟨-, -, -, -, -, -, h7, h8, h9, -⟩ := h
  unfold SegTargetsOK
  rw [h7, h8, h9]

/-- One engine sample preserves the invariant and emits a sample whose
phase is in `[0, 1]` and whose segment index is at most the sentinel. -/
theorem step_inv (ctx : Ctx) (st : SegGenState) (g : GateFlags)
    (hc : CtxNonneg ctx) (h : Inv st) :
    Inv (processMultiSegmentStep ctx st g).1 ∧
    (processMultiSegmentStep ctx st g).1.num_segments = st.num_segments ∧
    0 ≤ (processMultiSegmentStep ctx st g).2.phase ∧
    (processMultiSegmentStep ctx st g).2.phase ≤ 1 ∧
    (processMultiSegmentStep ctx st g).2.segment ≤ st.num_segments := by
  obtain ⟨hp0, hp1, hact, hsegs⟩ := h
  have hpa0 : 0 ≤ stepPhaseAdv ctx st := by
    unfold stepPhaseAdv
    cases htime : (currentSegment st).time with
    | none => exact hp0
    | some t => exact add_nonneg hp0 (hc _)
  have hclamp0 : 0 ≤ stepPhaseClamped ctx st := by
    unfold stepPhaseClamped
    split_ifs
    · norm_num
    · exact hpa0
  have hclamp1 : stepPhaseClamped ctx st ≤ 1 := by
    unfold stepPhaseClamped
    split_ifs with hcl
    · exact le_refl 1
    · push_neg at hcl
      linarith
  have htgt : targetOK st.num_segments (stepGo ctx st g) := by
    have hcur : SegTargetsOK st.num_segments (currentSegment st) :=
      hsegs st.active_segment hact
    unfold stepGo
    rcases goToSegment_mem g (currentSegment st) (decide (stepPhaseAdv ctx st ≥ 1))
      with h1 | h1 | h1 | h1 <;> rw [h1]
    · exact hcur.1
    · exact hcur.2.1
    · exact hcur.2.2
    · left
      rfl
  obtain ⟨hf1, hf2, hf3, hf4⟩ := stepAdvanceTm_fields ctx st
  by_cases hgo : stepGo ctx st g = -1
  · have hres : processMultiSegmentStep ctx st g =
        ({ st with phase := stepPhaseClamped ctx st, value := stepValue ctx st,
                   lp := stepLp ctx st },
         { value := stepLp ctx st, phase := stepPhaseClamped ctx st,
           segment := st.active_segment }) := by
      unfold processMultiSegmentStep
      rw [if_neg (by simp [hgo])]
    rw [hres]
    refine ⟨⟨hclamp0, hclamp1, hact, ?_⟩, rfl, hclamp0, hclamp1, hact⟩
    intro i hi
    exact hsegs i hi
  · have htn : (stepGo ctx st g).toNat ≤ st.num_segments := by
      rcases htgt with h1 | ⟨h1, h2⟩
      · exact absurd h1 hgo
      · omega
    have hphase : (processMultiSegmentStep ctx st g).1.phase = 0 := by
      unfold processMultiSegmentStep
      rw [if_pos hgo]
    have hactive : (processMultiSegmentStep ctx st g).1.active_segment =
        (stepGo ctx st g).toNat := by
      unfold processMultiSegmentStep
      rw [if_pos hgo]
    have hnum : (processMultiSegmentStep ctx st g).1.num_segments =
        st.num_segments := by
      unfold processMultiSegmentStep
      rw [if_pos hgo]
      exact hf1
    have hsegeq : (processMultiSegmentStep ctx st g).1.segments =
        (stepAdvanceTm ctx st).segments := by
      unfold processMultiSegmentStep
      rw [if_pos hgo]
    have houtphase : (processMultiSegmentStep ctx st g).2.phase = 0 := by
      unfold processMultiSegmentStep
      rw [if_pos hgo]
    have houtseg : (processMultiSegmentStep ctx st g).2.segment =
        (stepGo ctx st g).toNat := by
      unfold processMultiSegmentStep
      rw [if_pos hgo]
    refine ⟨⟨?_, ?_, ?_, ?_⟩, hnum, ?_, ?_, ?_⟩
    · rw [hphase]
    · rw [hphase]
      norm_num
    · rw [hactive, hnum]
      exact htn
    · intro i hi
      rw [hnum] at hi
      rw [hnum, hsegeq, stepAdvanceTm_targets]
      exact hsegs i hi
    · rw [houtphase]
    · rw [houtphase]
      norm_num
    · rw [houtseg]
      exact htn

/-- Block-level invariant: a whole render call preserves the invariant
and every emitted sample is in range. -/
theorem process_inv (ctx : Ctx) (hc : CtxNonneg ctx) (gs : List GateFlags) :
    ∀ st : SegGenState, Inv st →
      Inv (processMultiSegment ctx st gs).2 ∧
      (processMultiSegment ctx st gs).2.num_segments = st.num_segments ∧
      ∀ j, j < (processMultiSegment ctx st gs).1.length →
        0 ≤ ((processMultiSegment ctx st gs).1.getD j dfltOutput).phase ∧
        ((processMultiSegment ctx st gs).1.getD j dfltOutput).phase ≤ 1 ∧
        ((processMultiSegment ctx st gs).1.getD j dfltOutput).segment ≤ st.num_segments := by
  induction gs with
  | nil =>
    intro st h
    refine ⟨h, rfl, ?_⟩
    intro j hj
    simp only [processMultiSegment, List.length_nil] at hj
    omega
  | cons g gs ih =>
    intro st h
    obtain ⟨hs1, hs2, hs3, hs4, hs5⟩ := step_inv ctx st g hc h
    obtain ⟨ih1, ih2, ih3⟩ := ih (processMultiSegmentStep ctx st g).1 hs1
    have hunf1 : (processMultiSegment ctx st (g :: gs)).2 =
        (processMultiSegment ctx (processMultiSegmentStep ctx st g).1 gs).2 := rfl
    have hunf2 : (processMultiSegment ctx st (g :: gs)).1 =
        (processMultiSegmentStep ctx st g).2 ::
          (processMultiSegment ctx (processMultiSegmentStep ctx st g).1 gs).1 := rfl
    refine ⟨by rw [hunf1]; exact ih1, by rw [hunf1, ih2, hs2], ?_⟩
    intro j hj
    rw [hunf2]
    cases j with
    | zero =>
      simp only [List.getD_cons_zero]
      exact ⟨hs3, hs4, hs5⟩
    | succ j =>
      simp only [List.getD_cons_succ]
      rw [hunf2, List.length_cons] at hj
      have hr := ih3 j (by omega)
      rw [hs2] at hr
      exact hr

/-- Iterated render calls: invariant and in-range outputs across any
sequence of blocks. -/
theorem blocks_inv (ctx : Ctx) (hc : CtxNonneg ctx) (blocks : List (List GateFlags)) :
    ∀ st : SegGenState, Inv st →
      Inv (processBlocks ctx st blocks).2 ∧
      (processBlocks ctx st blocks).2.num_segments = st.num_segments ∧
      ∀ j, j < (processBlocks ctx st blocks).1.length →
        0 ≤ ((processBlocks ctx st blocks).1.getD j dfltOutput).phase ∧
        ((processBlocks ctx st blocks).1.getD j dfltOutput).phase ≤ 1 ∧
        ((processBlocks ctx st blocks).1.getD j dfltOutput).segment ≤ st.num_segments := by
  induction blocks with
  | nil =>
    intro st h
    refine ⟨h, rfl, ?_⟩
    intro j hj
    simp only [processBlocks, List.length_nil] at hj
    omega
  | cons b bs ih =>
    intro st h
    obtain ⟨hb1, hb2, hb3⟩ := process_inv ctx hc b st h
    obtain ⟨ih1, ih2, ih3⟩ := ih (processMultiSegment ctx st b).2 hb1
    have hunf1 : (processBlocks ctx st (b :: bs)).2 =
        (processBlocks ctx (processMultiSegment ctx st b).2 bs).2 := rfl
    have hunf2 : (processBlocks ctx st (b :: bs)).1 =
        (processMultiSegment ctx st b).1 ++
          (processBlocks ctx (processMultiSegment ctx st b).2 bs).1 := rfl
    refine ⟨by rw [hunf1]; exact ih1, by rw [hunf1, ih2, hb2], ?_⟩
    intro j hj
    rw [hunf2]
    by_cases hjl : j < (processMultiSegment ctx st b).1.length
    · rw [List.getD_eq_getElem?_getD, List.getElem?_append_left hjl,
        ← List.getD_eq_getElem?_getD]
      exact hb3 j hjl
    · rw [List.getD_eq_getElem?_getD, List.getElem?_append_right (by omega),
        ← List.getD_eq_getElem?_getD]
      rw [hunf2, List.length_append] at hj
      have hr := ih3 (j - (processMultiSegment ctx st b).1.length) (by omega)
      rw [hb2] at hr
      exact hr

/-- The multi-segment range lemma: for every render call after a valid
multi-segment `Configure` (`2 <= n <= 6`) and every emitted sample, the
output phase lies in `[0, 1]` and the output segment index lies in
`[0, n]`, where index `n` is the sentinel entered immediately after
`Configure`.  The hypotheses state the `Init`-established context:
nonnegative frequency table, the 7-slot segment array, and a phase
already in `[0, 1]` (set to 0 by `Init` and preserved by every render
call). -/
theorem c1_output_ranges (ctx : Ctx) (st : SegGenState) (cfg : List Configuration)
    (n : ℕ) (blocks : List (List GateFlags)) (j : ℕ)
    (hc : CtxNonneg ctx) (hn2 : 2 ≤ n) (hn6 : n ≤ 6)
    (h7 : st.segments.length = 7)
    (hp0 : 0 ≤ st.phase) (hp1 : st.phase ≤ 1)
    (hj : j < (processBlocks ctx (configure st cfg n) blocks).1.length) :
    0 ≤ ((processBlocks ctx (configure st cfg n) blocks).1.getD j dfltOutput).phase ∧
    ((processBlocks ctx (configure st cfg n) blocks).1.getD j dfltOutput).phase ≤ 1 ∧
    ((processBlocks ctx (configure st cfg n) blocks).1.getD j dfltOutput).segment ≤ n := by
  obtain ⟨hinv, hnum, hactive, hlen⟩ := configure_inv st cfg n hn2 hn6 h7 hp0 hp1
  obtain ⟨b1, b2, b3⟩ := blocks_inv ctx hc blocks (configure st cfg n) hinv
  have hr := b3 j hj
  rw [hnum] at hr
  exact hr

/-- Concrete instantiation of the multi-segment range lemma. -/
theorem c1_witness :
    CtxNonneg ctxW ∧ 2 ≤ 2 ∧ 2 ≤ 6 ∧ stW.segments.length = 7 ∧
    0 ≤ stW.phase ∧ stW.phase ≤ 1 ∧
    0 < (processBlocks ctxW (configure stW cfgW 2) blocksW).1.length ∧
    0 ≤ ((processBlocks ctxW (configure stW cfgW 2) blocksW).1.getD 0 dfltOutput).phase ∧
    ((processBlocks ctxW (configure stW cfgW 2) blocksW).1.getD 0 dfltOutput).phase ≤ 1 ∧
    ((processBlocks ctxW (configure stW cfgW 2) blocksW).1.getD 0 dfltOutput).segment ≤ 2 := by
  have hc : CtxNonneg ctxW := fun i => by norm_num [ctxW]
  have hlen : 0 < (processBlocks ctxW (configure stW cfgW 2) blocksW).1.length := by
    with_unfolding_all decide
  have h := c1_output_ranges ctxW stW cfgW 2 blocksW 0 hc (le_refl 2) (by norm_num)
    (by with_unfolding_all decide) (le_refl 0) (by norm_num [stW]) hlen
  exact ⟨hc, le_refl 2, by norm_num, by with_unfolding_all decide,
    le_refl 0, by norm_num [stW], hlen, h.1, h.2.1, h.2.2⟩

set_option maxRecDepth 8000 in
set_option maxHeartbeats 2000000 in
/-- Counterexample for C1: a single RAMP segment configured with a
trigger and the bipolar bit is a valid `Configure` with `n = 1`, and both
dispatch tables select the TapLFO kernel for it.  At sample rate 200
(`Init` gives `max_frequency = 1000/200 = 5`), a first render call whose
division lookup returns `(0.249999, 4)` (the first DEFAULT divider table
entry) sees a RISING edge and a quiet sample: the degenerate first pulse
sets the extractor frequency to the sample rate and `train_phase` climbs
to its divider clamp 4.  A second render call whose lookup now returns
`(0.333333, 3)` (the knob moved one entry) opens with another RISING
edge: the two-sample pulse is at the audio-rate threshold, the extractor
flips to its audio regime, and the emitted sample's output phase is
`6333333/2000000` (about 3.17) — far outside the claimed range `[0, 1]`,
refuting the claim on the `n = 1` path. -/
theorem c1_counterexample :
    singleSegmentMode false true { type := .RAMP, loop := true, bipolar := true }
      = ProcessMode.tapLFO ∧
    singleSegmentMode true true { type := .RAMP, loop := true, bipolar := true }
      = ProcessMode.tapLFO ∧
    dividerTable.getD 0 { value := 0, q := 0 }
      = { value := 249999/1000000, q := 4 } ∧
    dividerTable.getD 1 { value := 0, q := 0 }
      = { value := 333333/1000000, q := 3 } ∧
    1 < ((processTapLFO (fun _ => 0) { value := 333333/1000000, q := 3 } 0 true
      (processTapLFO (fun _ => 0) { value := 249999/1000000, q := 4 } 0 true
        (rampInit 200 5) tapGatesW).2.1
      [{ rising := true, falling := false, high := true }]).1.getD 0
        dfltOutput).phase := by
  refine ⟨rfl, rfl, rfl, rfl, ?_⟩
  with_unfolding_all decide

/-- Claim C1 (amended): after a valid multi-segment `Configure`
(`2 ≤ n ≤ 6`) every emitted sample's phase lies in `[0, 1]` and its
segment index in `[0, n]`, with index `n` the sentinel entered at
`Configure`.  On the `n = 1` path the same ranges (with sentinel 1) hold
for every single-segment kernel except TapLFO — Zero, DecayEnv,
TimedPulse, Gate, Sample-and-Hold, Track-and-Hold, Portamento, Random,
Turing, Logistic, Delay and FreeLFO — each under its `Init`-established
state invariant and the external-table contracts (a nonnegative frequency
read where the kernel clamps the phase, one bounded by 1 where it wraps).
TapLFO emits the raw extractor ramp as its phase, which can exceed 1
(see the counterexample), so the claim's range fails there. -/
theorem c1_amended_ranges :
    (∀ ctx st cfg n blocks j, CtxNonneg ctx → 2 ≤ n → n ≤ 6 →
      st.segments.length = 7 → 0 ≤ st.phase → st.phase ≤ 1 →
      j < (processBlocks ctx (configure st cfg n) blocks).1.length →
      0 ≤ ((processBlocks ctx (configure st cfg n) blocks).1.getD j dfltOutput).phase ∧
      ((processBlocks ctx (configure st cfg n) blocks).1.getD j dfltOutput).phase ≤ 1 ∧
      ((processBlocks ctx (configure st cfg n) blocks).1.getD j dfltOutput).segment ≤ n) ∧
    (∀ size i, outputRangeOK ((processZero size).getD i dfltOutput)) ∧
    (∀ frequency secondary retrig0 st g, 0 ≤ frequency →
      0 ≤ st.phase → st.phase ≤ 1 → st.active_segment ≤ 1 →
      outputRangeOK (processDecayStep frequency secondary retrig0 st g).2 ∧
      0 ≤ (processDecayStep frequency secondary retrig0 st g).1.phase ∧
      (processDecayStep frequency secondary retrig0 st g).1.phase ≤ 1 ∧
      (processDecayStep frequency secondary retrig0 st g).1.active_segment ≤ 1) ∧
    (∀ frequency p retrig0 st g, 0 ≤ frequency →
      0 ≤ st.phase → st.phase ≤ 1 → st.active_segment ≤ 1 →
      outputRangeOK (processTimedPulseStep frequency p retrig0 st g).2 ∧
      0 ≤ (processTimedPulseStep frequency p retrig0 st g).1.phase ∧
      (processTimedPulseStep frequency p retrig0 st g).1.phase ≤ 1 ∧
      (processTimedPulseStep frequency p retrig0 st g).1.active_segment ≤ 1) ∧
    (∀ p g, outputRangeOK (processGateStep p g).2) ∧
    (∀ coefficient p st g d,
      outputRangeOK (processSampleAndHoldStep coefficient p st g d).2) ∧
    (∀ coefficient p st g d,
      outputRangeOK (processTrackAndHoldStep coefficient p st g d).2) ∧
    (∀ coefficient p lp, outputRangeOK (processPortamentoStep coefficient p lp).2) ∧
    (∀ coefficient frequency bipolar rnd st, st.active_segment ≤ 1 →
      outputRangeOK (processRandomStep coefficient frequency bipolar rnd st).2 ∧
      (processRandomStep coefficient frequency bipolar rnd st).1.active_segment ≤ 1) ∧
    (∀ steps prob rnd bipolar st g,
      outputRangeOK (processTuringStep steps prob rnd bipolar st g).2.2) ∧
    (∀ coefficient r bipolar st g,
      outputRangeOK (processLogisticStep coefficient r bipolar st g).2.2) ∧
    (∀ clock_frequency delay_frequency p dl st,
      0 ≤ delay_frequency → delay_frequency ≤ 1 → 0 ≤ st.aux → st.aux < 1 →
      outputRangeOK (processDelayStep clock_frequency delay_frequency p dl st).2 ∧
      0 ≤ (processDelayStep clock_frequency delay_frequency p dl st).1.aux ∧
      (processDelayStep clock_frequency delay_frequency p dl st).1.aux < 1) ∧
    (∀ sine shape bipolar frequency phase,
      0 ≤ frequency → frequency ≤ 1 → 0 ≤ phase → phase ≤ 1 →
      outputRangeOK (freeLFOSample sine shape bipolar frequency phase) ∧
      0 ≤ processFreeLFOStep frequency phase ∧
      processFreeLFOStep frequency phase ≤ 1) := by
  refine ⟨?_, ?_, ?_, ?_, ?_, ?_, ?_, ?_, ?_, ?_, ?_, ?_, ?_⟩
  · intro ctx st cfg n blocks j hc h2 h6 h7 hp0 hp1 hj
    exact c1_output_ranges ctx st cfg n blocks j hc h2 h6 h7 hp0 hp1 hj
  · intro size i
    simp only [processZero, outputRangeOK, List.getD_eq_getElem?_getD,
      List.getElem?_replicate]
    by_cases h : i < size <;> simp [h, dfltOutput] <;> norm_num
  · intro frequency secondary retrig0 st g hf hp0 hp1 ha
    simp only [processDecayStep, outputRangeOK]
    split_ifs <;> (try dsimp only at *) <;>
      refine ⟨⟨by linarith, by linarith, by omega⟩, by linarith, by linarith, by omega⟩
  · intro frequency p retrig0 st g hf hp0 hp1 ha
    simp only [processTimedPulseStep, outputRangeOK]
    split_ifs <;> (try dsimp only at *) <;>
      refine ⟨⟨by linarith, by linarith, by omega⟩, by linarith, by linarith, by omega⟩
  · intro p g
    simp only [processGateStep, outputRangeOK]
    refine ⟨by norm_num, by norm_num, ?_⟩
    dsimp only
    split_ifs <;> omega
  · intro coefficient p st g d
    simp only [processSampleAndHoldStep, outputRangeOK]
    refine ⟨by norm_num, by norm_num, ?_⟩
    dsimp only
    split_ifs <;> omega
  · intro coefficient p st g d
    simp only [processTrackAndHoldStep, outputRangeOK]
    refine ⟨by norm_num, by norm_num, ?_⟩
    dsimp only
    split_ifs <;> omega
  · intro coefficient p lp
    refine ⟨?_, ?_, ?_⟩ <;> simp [processPortamentoStep] <;> norm_num
  · intro coefficient frequency bipolar rnd st ha
    simp only [processRandomStep, outputRangeOK]
    split_ifs <;> (try dsimp only at *) <;>
      refine ⟨⟨by norm_num, by norm_num, by omega⟩, by omega⟩
  · intro steps prob rnd bipolar st g
    simp only [processTuringStep, outputRangeOK]
    refine ⟨by norm_num, by norm_num, ?_⟩
    dsimp only
    split_ifs <;> omega
  · intro coefficient r bipolar st g
    simp only [processLogisticStep, outputRangeOK]
    refine ⟨by norm_num, by norm_num, ?_⟩
    dsimp only
    split_ifs <;> omega
  · intro clock_frequency delay_frequency p dl st hd0 hd1 ha0 ha1
    simp only [processDelayStep, outputRangeOK]
    split_ifs <;> (try dsimp only at *) <;>
      refine ⟨⟨by linarith, by linarith, by omega⟩, by linarith, by linarith⟩
  · intro sine shape bipolar frequency phase hf0 hf1 hp0 hp1
    simp only [freeLFOSample, shapeLFOSample, processFreeLFOStep, outputRangeOK]
    split_ifs <;> (try dsimp only at *) <;>
      refine ⟨⟨by linarith, by linarith, by omega⟩, by linarith, by linarith⟩

/-- Witness for C1's amended theorem: the multi-segment part at the
concrete two-segment fixture, and the Decay, TimedPulse, Random, Delay
and FreeLFO parts at concrete in-range states. -/
theorem c1_amended_witness :
    CtxNonneg ctxW ∧
    0 < (processBlocks ctxW (configure stW cfgW 2) blocksW).1.length ∧
    ((processBlocks ctxW (configure stW cfgW 2) blocksW).1.getD 0 dfltOutput).phase ≤ 1 ∧
    outputRangeOK (processDecayStep (1/2) (1/2) true
      { phase := 1/2, active_segment := 0, value := 0 }
      { rising := true, falling := false, high := true }).2 ∧
    outputRangeOK (processTimedPulseStep (1/2) (3/5) true
      { phase := 1/2, active_segment := 0, retrig_delay := 0, value := 0 }
      { rising := true, falling := false, high := true }).2 ∧
    outputRangeOK (processRandomStep (1/2) (1/2) false (1/3)
      { phase := 1/2, value := 0, lp := 0, active_segment := 0 }).2 ∧
    outputRangeOK (processDelayStep (1/2) (1/2) 0 0
      { phase := 0, aux := 1/2, lp := 0, value := 0 }).2 ∧
    outputRangeOK (freeLFOSample (fun _ => 0) 0 false (1/2) (1/2)) := by
  have hc : CtxNonneg ctxW := fun i => by norm_num [ctxW]
  have hlen : 0 < (processBlocks ctxW (configure stW cfgW 2) blocksW).1.length := by
    with_unfolding_all decide
  refine ⟨hc, hlen, ?_, ?_, ?_, ?_, ?_, ?_⟩
  · exact (c1_amended_ranges.1 ctxW stW cfgW 2 blocksW 0 hc (le_refl 2)
      (by norm_num) (by with_unfolding_all decide) (le_refl 0)
      (by norm_num [stW]) hlen).2.1
  · exact (c1_amended_ranges.2.2.1 (1/2) (1/2) true
      { phase := 1/2, active_segment := 0, value := 0 }
      { rising := true, falling := false, high := true }
      (by norm_num) (by norm_num) (by norm_num) (by norm_num)).1
  · exact (c1_amended_ranges.2.2.2.1 (1/2) (3/5) true
      { phase := 1/2, active_segment := 0, retrig_delay := 0, value := 0 }
      { rising := true, falling := false, high := true }
      (by norm_num) (by norm_num) (by norm_num) (by norm_num)).1
  · exact (c1_amended_ranges.2.2.2.2.2.2.2.2.1 (1/2) (1/2) false (1/3)
      { phase := 1/2, value := 0, lp := 0, active_segment := 0 }
      (by norm_num)).1
  · exact (c1_amended_ranges.2.2.2.2.2.2.2.2.2.2.2.1 (1/2) (1/2) 0 0
      { phase := 0, aux := 1/2, lp := 0, value := 0 }
      (by norm_num) (by norm_num) (by norm_num) (by norm_num)).1
  · exact (c1_amended_ranges.2.2.2.2.2.2.2.2.2.2.2.2 (fun _ => 0) 0 false
      (1/2) (1/2) (by norm_num) (by norm_num) (by norm_num) (by norm_num)).1

set_option maxRecDepth 8000 in
set_option maxHeartbeats 2000000 in
/-- Counterexample for C6: at sample rate 2, after a quiet stretch of 12
samples (the initial reset interval is 10), the ending pulse triggers the
reset path; the code then sets `reset_interval` to 4 times the long
pulse's duration (48), not to `max(4/target_frequency, 3*SR)` (which is
26 here), refuting the claim's "thereafter" formula at this input. -/
theorem c6_counterexample :
    (rampInit 2 1).reset_interval = 5 * 2 ∧
    ((rampProcess { value := 1, q := 1 } (rampInit 2 1)
        (rampGatesW.take 12)).2.history.getD
      (rampProcess { value := 1, q := 1 } (rampInit 2 1)
        (rampGatesW.take 12)).2.current_pulse dfltPulse).total_duration = 12 ∧
    (rampProcess { value := 1, q := 1 } (rampInit 2 1)
      (rampGatesW.take 12)).2.reset_interval = 6 ∧
    (handleRising
      ((rampProcess { value := 1, q := 1 } (rampInit 2 1)
        (rampGatesW.take 12)).2.audio_rate_period_hysteresis * 1)
      { value := 1, q := 1 }
      (rampProcess { value := 1, q := 1 } (rampInit 2 1)
        (rampGatesW.take 12)).2).train_phase = 0 ∧
    (handleRising
      ((rampProcess { value := 1, q := 1 } (rampInit 2 1)
        (rampGatesW.take 12)).2.audio_rate_period_hysteresis * 1)
      { value := 1, q := 1 }
      (rampProcess { value := 1, q := 1 } (rampInit 2 1)
        (rampGatesW.take 12)).2).frequency =
    (handleRising
      ((rampProcess { value := 1, q := 1 } (rampInit 2 1)
        (rampGatesW.take 12)).2.audio_rate_period_hysteresis * 1)
      { value := 1, q := 1 }
      (rampProcess { value := 1, q := 1 } (rampInit 2 1)
        (rampGatesW.take 12)).2).target_frequency ∧
    (rampProcess { value := 1, q := 1 } (rampInit 2 1) rampGatesW).2.reset_interval = 48 ∧
    max (4 / (rampProcess { value := 1, q := 1 } (rampInit 2 1)
      rampGatesW).2.target_frequency) (2 * 3) = 26 ∧
    (48 : ℚ) ≠ 26 := by
  with_unfolding_all decide

/-- The low-rate recorded path never changes the sample rate. -/
theorem lowRateEdge_sample_rate (r : RatioRec) (st : RampState) (p : PulseRec)
    (period : ℚ) : (lowRateEdge r st p period).sample_rate = st.sample_rate := by
  simp only [lowRateEdge, UpdateAveragePulseWidth]
  split_ifs <;> rfl

/-- The low-rate recorded path always ends by storing
`trunc(max(4/target_frequency, sample_rate*3))` as the reset interval. -/
theorem lowRateEdge_reset_interval (r : RatioRec) (st : RampState) (p : PulseRec)
    (period : ℚ) :
    (lowRateEdge r st p period).reset_interval =
      (((ratTrunc (max (4 / (lowRateEdge r st p period).target_frequency)
        ((lowRateEdge r st p period).sample_rate * 3))).toNat : ℤ) : ℚ) := by
  simp only [lowRateEdge, UpdateAveragePulseWidth]
  split_ifs <;> rfl

/-- Claim C6 (amended): a pulse whose total duration is not shorter than
`reset_interval` is discarded from history accumulation (the ring index
does not advance), `train_phase` is hard-reset to 0, frequency and target
frequency are both set to `1/predicted_next_period` — but `reset_interval`
is set to 4 times that pulse's duration; the value
`max(4/target_frequency, 3*SR)` (truncated to an integer) is written only
by recorded low-rate pulses, and the initial value is `5*SR`. -/
theorem c6_amended_reset (arT : ℚ) (r : RatioRec) (st : RampState)
    (h : ¬ (((st.history.getD st.current_pulse dfltPulse).total_duration : ℚ)
      < st.reset_interval)) :
    (handleRising arT r st).train_phase = 0 ∧
    (handleRising arT r st).frequency = 1 / (PredictNextPeriod st).2 ∧
    (handleRising arT r st).target_frequency = 1 / (PredictNextPeriod st).2 ∧
    (handleRising arT r st).current_pulse = st.current_pulse ∧
    (handleRising arT r st).reset_interval =
      4 * ((st.history.getD st.current_pulse dfltPulse).total_duration : ℚ) ∧
    (∀ sample_rate max_frequency : ℚ,
      (rampInit sample_rate max_frequency).reset_interval = 5 * sample_rate) ∧
    (∀ (arT2 : ℚ) (r2 : RatioRec) (st2 : RampState),
      (((st2.history.getD st2.current_pulse dfltPulse).total_duration : ℚ)
        < st2.reset_interval) →
      ¬ (((st2.history.getD st2.current_pulse dfltPulse).total_duration : ℚ) ≤ arT2 ∧
         ((st2.history.getD st2.current_pulse dfltPulse).total_duration : ℚ) > 0) →
      (handleRising arT2 r2 st2).reset_interval =
        (((ratTrunc (max (4 / (handleRising arT2 r2 st2).target_frequency)
          (st2.sample_rate * 3))).toNat : ℤ) : ℚ)) := by
  refine ⟨?_, ?_, ?_, ?_, ?_, ?_, ?_⟩
  · simp only [handleRising]
    rw [if_pos (by simpa using not_lt.mp h)]
    rfl
  · simp only [handleRising]
    rw [if_pos (by simpa using not_lt.mp h)]
    rfl
  · simp only [handleRising]
    rw [if_pos (by simpa using not_lt.mp h)]
    rfl
  · simp only [handleRising]
    rw [if_pos (by simpa using not_lt.mp h)]
    rfl
  · simp only [handleRising]
    rw [if_pos (by simpa using not_lt.mp h)]
    rfl
  · intro sample_rate max_frequency
    rfl
  · intro arT2 r2 st2 h2 hna
    have hL : (handleRising arT2 r2 st2).reset_interval =
        (lowRateEdge r2 st2 (st2.history.getD st2.current_pulse dfltPulse)
          ((st2.history.getD st2.current_pulse dfltPulse).total_duration : ℚ)).reset_interval := by
      simp only [handleRising]
      rw [if_neg (by simpa using h2), if_neg hna]
    have hT : (handleRising arT2 r2 st2).target_frequency =
        (lowRateEdge r2 st2 (st2.history.getD st2.current_pulse dfltPulse)
          ((st2.history.getD st2.current_pulse dfltPulse).total_duration : ℚ)).target_frequency := by
      simp only [handleRising]
      rw [if_neg (by simpa using h2), if_neg hna]
    rw [hL, hT, lowRateEdge_reset_interval, lowRateEdge_sample_rate]

/-- Witness for C6's amended theorem at a concrete over-long pulse. -/
theorem c6_amended_reset_witness :
    ¬ (((rampStateW.history.getD rampStateW.current_pulse dfltPulse).total_duration : ℚ)
      < rampStateW.reset_interval) ∧
    (handleRising 0 { value := 1, q := 1 } rampStateW).train_phase = 0 ∧
    (handleRising 0 { value := 1, q := 1 } rampStateW).reset_interval =
      4 * ((rampStateW.history.getD rampStateW.current_pulse dfltPulse).total_duration : ℚ) :=
  ⟨by with_unfolding_all decide,
   (c6_amended_reset 0 { value := 1, q := 1 } rampStateW
     (by with_unfolding_all decide)).1,
   (c6_amended_reset 0 { value := 1, q := 1 } rampStateW
     (by with_unfolding_all decide)).2.2.2.2.1⟩

end Stages
